import Mathlib

/-!
Verification development for the bpf-script compiler core.

The developed definitions are shallow embeddings of the Rust sources:

* src/optimizer.rs  — the peephole optimizer,
* src/types.rs      — the type database,
* src/helpers.rs    — the helper-name table,
* src/compiler/script.rs — the AST-level compiler (the PEG parser is
  external generated code; programs are given here as the AST values it
  yields, as described by the grammar embedded in script.rs).

The instruction set itself lives in the external crate bpf-ins, which the
specification treats as a black-box set of instruction constructors
(`mov64`, `movx64`, `add64`, `storeN`, `storex64`, `loadxN`, `loadtype`,
`call`, `exit`, `jmp_ifx`, `jmp_abs`); it is modelled by the inductive
`Instruction` below, with the accessors used by the optimizer.

Machine integers are modelled as `Nat` and `Int` with the explicit range
checks and wraparounds the Rust code performs (`try_into`, `as uN`).
-/

/- ### Instruction model (external crate bpf-ins, as used by this repo) -/

/-- The eleven BPF registers. -/
inductive Register where
  | r0 | r1 | r2 | r3 | r4 | r5 | r6 | r7 | r8 | r9 | r10
deriving DecidableEq, Repr

/-- Width of a memory operation (bpf-ins MemoryOpSize). -/
inductive MemoryOpSize where
  | byte | halfword | word | dword
deriving DecidableEq, Repr

/-- Jump comparison used by `jmp_ifx` (bpf-ins JumpOperation). -/
inductive JumpOperation where
  | ifEqual | ifNotEqual | ifGreater | ifGreaterOrEqual | ifLessThan | ifLessThanOrEqual
deriving DecidableEq, Repr

/-- Pseudo-load kind for `loadtype` (bpf-ins MemoryOpLoadType). -/
inductive MemoryOpLoadType where
  | void | map | mapValue | mapIndex
deriving DecidableEq, Repr

/-- One target instruction, one constructor per bpf-ins constructor used by
this repository.  `store8/16/32/64` and `loadx8/16/32/64` of bpf-ins are the
sized instances of `store` and `loadx`. -/
inductive Instruction where
  | mov64 (dst : Register) (imm : Int)
  | movx64 (dst src : Register)
  | add64 (dst : Register) (imm : Int)
  | store (size : MemoryOpSize) (dst : Register) (offset : Int) (imm : Int)
  | storex64 (dst : Register) (offset : Int) (src : Register)
  | loadx (dst src : Register) (offset : Int) (size : MemoryOpSize)
  | loadtype (dst : Register) (imm : Int) (load_type : MemoryOpLoadType)
  | call (id : Nat)
  | exit
  | jmp_ifx (ra : Register) (op : JumpOperation) (rb : Register) (offset : Int)
  | jmp_abs (offset : Int)
deriving DecidableEq, Repr

namespace Instruction

/-- bpf-ins `Instruction::store8`. -/
def store8 (dst : Register) (offset : Int) (imm : Int) : Instruction :=
  store .byte dst offset imm

/-- bpf-ins `Instruction::store16`. -/
def store16 (dst : Register) (offset : Int) (imm : Int) : Instruction :=
  store .halfword dst offset imm

/-- bpf-ins `Instruction::store32`. -/
def store32 (dst : Register) (offset : Int) (imm : Int) : Instruction :=
  store .word dst offset imm

/-- bpf-ins `Instruction::store64`. -/
def store64 (dst : Register) (offset : Int) (imm : Int) : Instruction :=
  store .dword dst offset imm

/-- bpf-ins `Instruction::loadx8`. -/
def loadx8 (dst src : Register) (offset : Int) : Instruction :=
  loadx dst src offset .byte

/-- bpf-ins `Instruction::loadx16`. -/
def loadx16 (dst src : Register) (offset : Int) : Instruction :=
  loadx dst src offset .halfword

/-- bpf-ins `Instruction::loadx32`. -/
def loadx32 (dst src : Register) (offset : Int) : Instruction :=
  loadx dst src offset .word

/-- bpf-ins `Instruction::loadx64`. -/
def loadx64 (dst src : Register) (offset : Int) : Instruction :=
  loadx dst src offset .dword

/-- `Instruction::get_dst_reg`: the destination-register field of the
encoded instruction (R0 for the instructions that do not use it). -/
def get_dst_reg : Instruction → Register
  | mov64 dst _ => dst
  | movx64 dst _ => dst
  | add64 dst _ => dst
  | store _ dst _ _ => dst
  | storex64 dst _ _ => dst
  | loadx dst _ _ _ => dst
  | loadtype dst _ _ => dst
  | jmp_ifx ra _ _ _ => ra
  | _ => .r0

/-- `Instruction::get_src_reg`: the source-register field (R0 when the
instruction does not use it). -/
def get_src_reg : Instruction → Register
  | movx64 _ src => src
  | storex64 _ _ src => src
  | loadx _ src _ _ => src
  | jmp_ifx _ _ rb _ => rb
  | _ => .r0

/-- `Instruction::get_imm`: the immediate field (0 when unused; for `call`
the immediate carries the helper id). -/
def get_imm : Instruction → Int
  | mov64 _ imm => imm
  | add64 _ imm => imm
  | store _ _ _ imm => imm
  | loadtype _ imm _ => imm
  | call id => (id : Int)
  | _ => 0

/-- The `Opcode::Memory(m) => m.get_size()` view used by the optimizer:
`some` exactly for the memory-class instructions, with their width.
(`loadtype` is the two-word load, a double-word memory instruction.) -/
def get_memory_size : Instruction → Option MemoryOpSize
  | store size _ _ _ => some size
  | storex64 _ _ _ => some .dword
  | loadx _ _ _ size => some size
  | loadtype _ _ _ => some .dword
  | _ => none

end Instruction

/- ### Peephole optimizer (src/optimizer.rs) -/

/-- The `Optimizer` function type of src/optimizer.rs, in value-passing
form: on success the Rust function consumes a window of its input slice and
pushes one instruction to the output; here that is `some (pushed, rest)`. -/
def Optimizer : Type := List Instruction → Option (Instruction × List Instruction)

/-- `optimize_mov_add_load` (src/optimizer.rs lines 14-47): rewrites the
window `r2 = r1; r2 += N; r2 = *r2` into `r2 = *(r1 + N)`, via the same
accessor-and-reconstruction checks the Rust code performs. -/
def optimize_mov_add_load : Optimizer := fun inp =>
  match inp with
  | i0 :: i1 :: i2 :: rem =>
    match i2.get_memory_size with
    | none => none
    | some load_size =>
      -- let offset1: i16 = ins[1].get_imm().try_into()
      let offset1 := i1.get_imm
      if -32768 ≤ offset1 ∧ offset1 ≤ 32767 then
        let check0 := Instruction.movx64 i0.get_dst_reg i0.get_src_reg
        let check1 := Instruction.add64 i1.get_dst_reg offset1
        let check2 := Instruction.loadx i2.get_dst_reg i2.get_src_reg 0 load_size
        if check0 = i0 ∧ check1 = i1 ∧ check2 = i2 then
          some (Instruction.loadx i0.get_dst_reg i0.get_src_reg offset1 load_size, rem)
        else none
      else none
  | _ => none

/-- `optimize_add_load` (src/optimizer.rs lines 56-88): rewrites
`r2 += N; r2 = *r2` into `r2 = *(r2 + N)`. -/
def optimize_add_load : Optimizer := fun inp =>
  match inp with
  | i0 :: i1 :: rem =>
    match i1.get_memory_size with
    | none => none
    | some load_size =>
      let offset0 := i0.get_imm
      if -32768 ≤ offset0 ∧ offset0 ≤ 32767 then
        let check0 := Instruction.add64 i0.get_dst_reg offset0
        let check1 := Instruction.loadx i1.get_dst_reg i1.get_src_reg 0 load_size
        if check0 = i0 ∧ check1 = i1 then
          some (Instruction.loadx i0.get_dst_reg i0.get_dst_reg offset0 load_size, rem)
        else none
      else none
  | _ => none

/-- `no_optimization` (src/optimizer.rs lines 90-98): copies the first
instruction unchanged. -/
def no_optimization : Optimizer := fun inp =>
  match inp with
  | [] => none
  | i :: rem => some (i, rem)

/-- The static `OPTIMIZERS` table (src/optimizer.rs line 101). -/
def OPTIMIZERS : List Optimizer :=
  [optimize_mov_add_load, optimize_add_load, no_optimization]

/-- One call `optimizer(instructions, &mut optimized)` of the Rust loop:
state is (output so far, remaining input). -/
def run_optimizer (s : List Instruction × List Instruction) (opt : Optimizer) :
    List Instruction × List Instruction :=
  match opt s.2 with
  | some (ins, rem) => (s.1 ++ [ins], rem)
  | none => s

/-- One iteration of the `while` loop in `optimize`: the
`for optimizer in OPTIMIZERS` loop, which runs all three optimizers in
order on the remaining input (the Rust code ignores their boolean
results).  Returns the instructions pushed this round and the remaining
input. -/
def optimize_round (inp : List Instruction) : List Instruction × List Instruction :=
  OPTIMIZERS.foldl run_optimizer ([], inp)

/-- Fuel-indexed form of the `while !instructions.is_empty()` loop of
`optimize` (src/optimizer.rs lines 108-118).  The fuel argument only
serves termination; any fuel at least the input length yields the
behavior of the Rust loop (`optimizeGo_fuel_ge`). -/
def optimizeGo : Nat → List Instruction → List Instruction
  | _, [] => []
  | 0, _ :: _ => []
  | n + 1, i :: rest =>
    let s := optimize_round (i :: rest)
    s.1 ++ optimizeGo n s.2

/-- `optimize` (src/optimizer.rs lines 108-118). -/
def optimize (instructions : List Instruction) : List Instruction :=
  optimizeGo instructions.length instructions

/- ### Reference rewriters for the optimizer claims -/

/-- Modelled from the spec (section 4.3 and the claim text): rewrite rule 1,
`mov+add+load` of the same destination register with load offset 0, with the
offset fitting a signed 16-bit field. -/
def spec_rule_mov_add_load : Optimizer := fun inp =>
  match inp with
  | .movx64 a b :: .add64 a1 n :: .loadx a2 a3 off w :: rem =>
    if a1 = a ∧ a2 = a ∧ a3 = a ∧ off = 0 ∧ -32768 ≤ n ∧ n ≤ 32767 then
      some (.loadx a b n w, rem)
    else none
  | _ => none

/-- Modelled from the spec (section 4.3): rewrite rule 2, `add+load` of the
same register with load offset 0. -/
def spec_rule_add_load : Optimizer := fun inp =>
  match inp with
  | .add64 a n :: .loadx a1 a2 off w :: rem =>
    if a1 = a ∧ a2 = a ∧ off = 0 ∧ -32768 ≤ n ∧ n ≤ 32767 then
      some (.loadx a a n w, rem)
    else none
  | _ => none

/-- Modelled from the spec: the reference rewriter of claim C2.  At each
position it tries the rules in order, applies only the first rule that
matches, and continues at the position immediately after the consumed
window; when no rule matches it copies the current instruction unchanged.
Fuel-indexed for termination; `spec_optimize` supplies enough fuel. -/
def spec_optimize_go : Nat → List Instruction → List Instruction
  | _, [] => []
  | 0, _ :: _ => []
  | fuel + 1, i :: rest =>
    match spec_rule_mov_add_load (i :: rest) with
    | some (ins, rem) => ins :: spec_optimize_go fuel rem
    | none =>
      match spec_rule_add_load (i :: rest) with
      | some (ins, rem) => ins :: spec_optimize_go fuel rem
      | none => i :: spec_optimize_go fuel rest

/-- The first-match-wins reference rewriter described by the spec. -/
def spec_optimize (l : List Instruction) : List Instruction :=
  spec_optimize_go l.length l

/-- Pattern-matching characterization of `optimize_mov_add_load`: the
accessor-and-reconstruction checks of the Rust code amount to this shape
(note: no register agreement across the three instructions is required).
Proven equal to `optimize_mov_add_load` below. -/
def pattern_mov_add_load : Optimizer := fun inp =>
  match inp with
  | .movx64 a b :: .add64 _ n :: .loadx _ _ off w :: rem =>
    if off = 0 ∧ -32768 ≤ n ∧ n ≤ 32767 then
      some (.loadx a b n w, rem)
    else none
  | _ => none

/-- Pattern-matching characterization of `optimize_add_load` (no register
agreement between the two instructions is required; the folded load uses
the add destination for both of its registers). -/
def pattern_add_load : Optimizer := fun inp =>
  match inp with
  | .add64 a n :: .loadx _ _ off w :: rem =>
    if off = 0 ∧ -32768 ≤ n ∧ n ≤ 32767 then
      some (.loadx a a n w, rem)
    else none
  | _ => none

/-- One round of the rewriter the amended claim C2 describes: run rule 1,
then rule 2 at the position after any rule-1 consumption, then copy one
instruction unconditionally — each step applying irrespective of whether an
earlier step in the round already consumed a window. -/
def cascade_round (inp : List Instruction) : List Instruction × List Instruction :=
  let s1 : List Instruction × List Instruction :=
    match pattern_mov_add_load inp with
    | some (ins, rem) => ([ins], rem)
    | none => ([], inp)
  let s2 : List Instruction × List Instruction :=
    match pattern_add_load s1.2 with
    | some (ins, rem) => (s1.1 ++ [ins], rem)
    | none => s1
  match s2.2 with
  | [] => s2
  | i :: rem => (s2.1 ++ [i], rem)

/-- The round-based rewriter of the amended claim C2, fuel-indexed. -/
def cascade_go : Nat → List Instruction → List Instruction
  | _, [] => []
  | 0, _ :: _ => []
  | fuel + 1, i :: rest =>
    let s := cascade_round (i :: rest)
    s.1 ++ cascade_go fuel s.2

/-- The round-based rewriter of the amended claim C2. -/
def cascade (l : List Instruction) : List Instruction :=
  cascade_go l.length l

/- ### Type database (src/types.rs) -/

/-- src/types.rs `Integer`. -/
structure Integer where
  used_bits : Nat
  bits : Nat
  is_signed : Bool
deriving DecidableEq, Repr

/-- `Integer::get_size`: size in bytes. -/
def Integer.get_size (i : Integer) : Nat := i.used_bits / 8

/-- src/types.rs `Float` (named `FloatType` here to avoid the Lean core
name). -/
structure FloatType where
  bits : Nat
deriving DecidableEq, Repr

/-- `Float::get_size`. -/
def FloatType.get_size (f : FloatType) : Nat := f.bits / 8

/-- src/types.rs `Array` (named `ArrayType` here to avoid the Lean core
name). -/
structure ArrayType where
  element_type_id : Nat
  num_elements : Nat
  size : Nat
deriving DecidableEq, Repr

/-- `Array::get_size`: the cached size. -/
def ArrayType.get_size (a : ArrayType) : Nat := a.size

/-- src/types.rs `Field` (named `StructField` here to avoid the Mathlib
algebraic `Field`).  `offset` is in bits. -/
structure StructField where
  offset : Nat
  type_id : Nat
deriving DecidableEq, Repr

/-- src/types.rs `Struct`.  The Rust `HashMap<String, Field>` is modelled
as an association list with first-match lookup. -/
structure Struct where
  fields : List (String × StructField)
  size : Nat
deriving DecidableEq, Repr

/-- `Struct::get_size`: the cached size. -/
def Struct.get_size (s : Struct) : Nat := s.size

/-- src/types.rs `Enum`. -/
structure Enum where
  bits : Nat
  values : List (String × Int)
deriving DecidableEq, Repr

/-- `Enum::get_size`. -/
def Enum.get_size (e : Enum) : Nat := e.bits / 8

/-- src/types.rs `Function` (named `FunctionType` here to avoid the Mathlib
`Function` namespace). -/
structure FunctionType where
  param_type_ids : List Nat
deriving DecidableEq, Repr

/-- src/types.rs `BaseType`. -/
inductive BaseType where
  | void
  | integer (i : Integer)
  | float (f : FloatType)
  | array (a : ArrayType)
  | struct (s : Struct)
  | enum (e : Enum)
  | function (f : FunctionType)
deriving DecidableEq, Repr

/-- `BaseType::get_size` (src/types.rs lines 199-209). -/
def BaseType.get_size : BaseType → Nat
  | .void => 0
  | .integer t => t.get_size
  | .float t => t.get_size
  | .array t => t.get_size
  | .struct t => t.get_size
  | .enum t => t.get_size
  | .function _ => 0

/-- src/types.rs `Type` (named `Ty` here because `Type` is a Lean
keyword). -/
structure Ty where
  base_type : BaseType
  num_refs : Nat
deriving DecidableEq, Repr

/-- `Type::is_pointer`: num_refs > 0. -/
def Ty.is_pointer (t : Ty) : Bool := 0 < t.num_refs

/-- `Type::get_size`: 8 for pointers, else the base size. -/
def Ty.get_size (t : Ty) : Nat :=
  if 0 < t.num_refs then 8 else t.base_type.get_size

/-- The Rust `Default` instance of `Type`: void with no references. -/
def ty_default : Ty := ⟨.void, 0⟩

/-- src/types.rs `TypeDatabase`: the type vector plus the name map (the
Rust `HashMap<String, usize>` is modelled as an association list with
first-match lookup). -/
structure TypeDatabase where
  types : List Ty
  name_map : List (String × Nat)
deriving DecidableEq, Repr

namespace TypeDatabase

/-- The Rust `Default` instance. -/
def default : TypeDatabase := ⟨[], []⟩

/-- `TypeDatabase::get_type_by_id` (src/types.rs lines 297-299). -/
def get_type_by_id (db : TypeDatabase) (id : Nat) : Option Ty :=
  db.types.get? id

/-- `TypeDatabase::get_type_id_by_name` (src/types.rs lines 306-308). -/
def get_type_id_by_name (db : TypeDatabase) (name : String) : Option Nat :=
  db.name_map.lookup name

/-- `TypeDatabase::get_type_by_name` (src/types.rs lines 287-290). -/
def get_type_by_name (db : TypeDatabase) (name : String) : Option Ty :=
  match db.name_map.lookup name with
  | some index => db.types.get? index
  | none => none

/-- `TypeDatabase::add_type` (src/types.rs lines 265-280).  The Rust
function returns `Result<usize>` but never errs; it is modelled as total.
Inserting a fresh binding into the name map is modelled by consing, which
has the same lookup semantics as `HashMap::insert` for a key that is not
yet present. -/
def add_type (db : TypeDatabase) (name : Option String) (ty : Ty) :
    TypeDatabase × Nat :=
  match name with
  | some n =>
    match db.name_map.lookup n with
    | some index => ({ db with types := db.types.set index ty }, index)
    | none =>
      ({ types := db.types ++ [ty], name_map := (n, db.types.length) :: db.name_map },
        db.types.length)
  | none => ({ db with types := db.types ++ [ty] }, db.types.length)

/-- `TypeDatabase::add_integer` (src/types.rs lines 317-331). -/
def add_integer (db : TypeDatabase) (name : Option String) (bytes : Nat)
    (is_signed : Bool) : TypeDatabase × Nat :=
  let bits := bytes * 8
  add_type db name ⟨.integer ⟨bits, bits, is_signed⟩, 0⟩

end TypeDatabase

/- ### Helper table (src/helpers.rs) -/

/-- `Helpers::from_string` (src/helpers.rs lines 191-425), modelled as an
association list from helper name to the integer discriminant of the
`Helpers` enum (the value `helper as u32` that `emit_call` emits).  The
entries appear in the order of the Rust if-chain; note that the source has
no entry for map_lookup_elem. -/
def helpers_name_table : List (String × Nat) :=
  [("map_update_elem", 2), ("map_delete_elem", 3), ("probe_read", 4),
   ("trace_printk", 6), ("skb_store_bytes", 9), ("l3_csum_replace", 10),
   ("l4_csum_replace", 11), ("tail_call", 12), ("clone_redirect", 13),
   ("get_current_pid_tgid", 14), ("get_current_uid_gid", 15),
   ("get_current_comm", 16), ("skb_vlan_push", 18), ("skb_vlan_pop", 19),
   ("skb_get_tunnel_key", 20), ("skb_set_tunnel_key", 21), ("redirect", 23),
   ("perf_event_output", 25), ("skb_load_bytes", 26), ("get_stackid", 27),
   ("skb_get_tunnel_opt", 29), ("skb_set_tunnel_opt", 30),
   ("skb_change_proto", 31), ("skb_change_type", 32), ("skb_under_cgroup", 33),
   ("probe_write_user", 36), ("current_task_under_cgroup", 37),
   ("skb_change_tail", 38), ("skb_pull_data", 39), ("get_numa_node_id", 42),
   ("skb_change_head", 43), ("xdp_adjust_head", 44), ("probe_read_str", 45),
   ("set_hash", 48), ("setsockopt", 49), ("skb_adjust_room", 50),
   ("redirect_map", 51), ("sk_redirect_map", 52), ("sock_map_update", 53),
   ("xdp_adjust_meta", 54), ("perf_event_read_value", 55),
   ("perf_prog_read_value", 56), ("getsockopt", 57), ("override_return", 58),
   ("sock_ops_cb_flags_set", 59), ("msg_redirect_map", 60),
   ("msg_apply_bytes", 61), ("msg_cork_bytes", 62), ("msg_pull_data", 63),
   ("bind", 64), ("xdp_adjust_tail", 65), ("skb_get_xfrm_state", 66),
   ("get_stack", 67), ("skb_load_bytes_relative", 68), ("fib_lookup", 69),
   ("sock_hash_update", 70), ("msg_redirect_hash", 71),
   ("sk_redirect_hash", 72), ("lwt_push_encap", 73),
   ("lwt_seg6_store_bytes", 74), ("lwt_seg6_adjust_srh", 75),
   ("lwt_seg6_action", 76), ("rc_repeat", 77), ("rc_keydown", 78),
   ("sk_select_reuseport", 82), ("sk_release", 86), ("map_push_elem", 87),
   ("map_pop_elem", 88), ("map_peek_elem", 89), ("msg_push_data", 90),
   ("msg_pop_data", 91), ("rc_pointer_rel", 92), ("spin_lock", 93),
   ("spin_unlock", 94), ("skb_ecn_set_ce", 97), ("tcp_check_syncookie", 100),
   ("sysctl_get_name", 101), ("sysctl_get_current_value", 102),
   ("sysctl_get_new_value", 103), ("sysctl_set_new_value", 104),
   ("strtol", 105), ("strtoul", 106), ("sk_storage_delete", 108),
   ("send_signal", 109), ("skb_output", 111), ("probe_read_user", 112),
   ("probe_read_kernel", 113), ("probe_read_user_str", 114),
   ("probe_read_kernel_str", 115), ("tcp_send_ack", 116),
   ("send_signal_thread", 117), ("read_branch_records", 119),
   ("get_ns_current_pid_tgid", 120), ("xdp_output", 121), ("sk_assign", 124),
   ("seq_printf", 126), ("seq_write", 127), ("ringbuf_output", 130),
   ("csum_level", 135), ("get_task_stack", 141), ("load_hdr_opt", 142),
   ("store_hdr_opt", 143), ("reserve_hdr_opt", 144), ("d_path", 147),
   ("copy_from_user", 148), ("snprintf_btf", 149), ("seq_printf_btf", 150),
   ("redirect_neigh", 152), ("redirect_peer", 155),
   ("task_storage_delete", 157), ("bprm_opts_set", 159),
   ("ima_inode_hash", 161), ("check_mtu", 163), ("for_each_map_elem", 164),
   ("snprintf", 165)]

/-- `Helpers::from_string`. -/
def helpers_from_string (name : String) : Option Nat :=
  helpers_name_table.lookup name

/-- `Helpers::get_arg_types` (src/helpers.rs lines 125-177), keyed by the
helper discriminant: MapLookupElem = 1, MapUpdateElem = 2,
MapDeleteElem = 3, MapPushElem = 87, MapPopElem = 88, MapPeekElem = 89. -/
def helper_get_arg_types (id : Nat) : List MemoryOpLoadType :=
  if id = 1 then [.map, .mapIndex, .void, .void, .void]
  else if id = 2 then [.map, .mapIndex, .mapValue, .void, .void]
  else if id = 3 then [.map, .mapIndex, .void, .void, .void]
  else if id = 87 ∨ id = 88 ∨ id = 89 then [.map, .mapValue, .void, .void, .void]
  else [.void, .void, .void, .void, .void]

/- ### Errors (src/error.rs) -/

/-- src/error.rs `Error`, restricted to the variants the compiler core can
produce (the parser and BTF adapter variants belong to external code). -/
inductive Error where
  | semantics (line : Nat) (message : String)
  | integerConversion
  | invalidTypeId
  | invalidTypeName
  | noConversion
  | internalError
deriving DecidableEq, Repr

instance {e a : Type} [DecidableEq e] [DecidableEq a] : DecidableEq (Except e a) := by
  intro x y
  cases x <;> cases y
  case error.error v w =>
    exact if h : v = w then .isTrue (by rw [h]) else .isFalse (by simp [h])
  case ok.ok v w =>
    exact if h : v = w then .isTrue (by rw [h]) else .isFalse (by simp [h])
  case error.ok v w => exact .isFalse (by simp)
  case ok.error v w => exact .isFalse (by simp)

/- Diagnostic messages of src/compiler/script.rs.  The Rust messages
interpolate names and values; here each is a fixed representative string
(no claim depends on message text, only on the error variant and line). -/

def msg_type_not_found : String := "Type with that name does not exist"
def msg_no_variable : String := "No variable with that name"
def msg_parse_immediate_failed : String := "Failed to parse immediate value"
def msg_stack_size_exceeded : String := "Stack size exceeded 4096 bytes with this assignment"
def msg_zero_sized : String := "Cannot assign to zero-sized type"
def msg_bits_unsupported : String := "integer bit width not supported"
def msg_diff_sizes : String := "Cannot assign two types of different sizes"
def msg_deref_unsupported : String := "Dereferencing is not currently supported"
def msg_fn_ret_64 : String := "Function return values can only be stored in 64-bit types"
def msg_fn_ret_int : String := "Function return values can only be stored in integer types"
def msg_non_struct : String := "Cannot field-deref a non-structure type"
def msg_no_field : String := "Field does not exist on type"
def msg_bitfield : String := "Bit-field accesses not supported"
def msg_bad_type_id : String := "Internal error; type id invalid"
def msg_non_array : String := "Cannot array-deref a non-array type"
def msg_oob_array : String := "Out-of-bounds array access"
def msg_deref_too_large : String := "Type is too large to deref"
def msg_indirection : String := "Cannot deref an offset through an indirection"
def msg_retype : String := "Cannot re-type after first assignment"
def msg_reassign : String := "Variable cannot be re-assigned"
def msg_capture_assign : String := "Variable is a capture; captures cannot be assigned to"
def msg_capture_deref : String := "Cannot dereference; it is a capture"
def msg_too_large_reg : String := "The variable is too large to be passed in a register"
def msg_non_pointer : String := "Cannot dereference a non-pointer type"
def msg_unknown_function : String := "Unknown function"
def msg_call_args : String := "Function call exceeds 5 arguments"
def msg_fn_args : String := "Function exceeds 5 arguments"

/- ### Numeric parsing and casts -/

/-- Decimal value of an immediate token.  The grammar production
`Immediate = digits+` only yields non-empty strings of ASCII digits; on
those, Rust `str::parse::<uN/iN>` succeeds exactly when the value fits the
target range, which `parse_in_range` checks below.  On any other string the
Rust parse fails, as here. -/
def parse_decimal (s : String) : Option Nat :=
  if s.data.length ≠ 0 ∧ s.data.all Char.isDigit then
    some (s.data.foldl (fun n c => 10 * n + (c.toNat - 48)) 0)
  else none

/-- Rust `str::parse::<T>` for an unsigned or non-negative bounded integer
type with maximum value `max`. -/
def parse_in_range (s : String) (max : Nat) : Option Nat :=
  match parse_decimal s with
  | some v => if v ≤ max then some v else none
  | none => none

/-- Rust `as i8` applied to a `u8` value. -/
def as_i8 (v : Nat) : Int :=
  if v % 256 < 128 then ((v % 256 : Nat) : Int) else ((v % 256 : Nat) : Int) - 256

/-- Rust `as i16` applied to a `u16` value. -/
def as_i16 (v : Nat) : Int :=
  if v % 65536 < 32768 then ((v % 65536 : Nat) : Int)
  else ((v % 65536 : Nat) : Int) - 65536

/-- Rust `as i32` applied to a `u32` value. -/
def as_i32 (v : Nat) : Int :=
  if v % 4294967296 < 2147483648 then ((v % 4294967296 : Nat) : Int)
  else ((v % 4294967296 : Nat) : Int) - 4294967296

/-- Rust `as i64` applied to a `u64` value. -/
def as_i64 (v : Nat) : Int :=
  if v % 18446744073709551616 < 9223372036854775808 then
    ((v % 18446744073709551616 : Nat) : Int)
  else ((v % 18446744073709551616 : Nat) : Int) - 18446744073709551616

/-- Rust `as i32` applied to an `i64` value (truncation). -/
def int_as_i32 (v : Int) : Int :=
  (v + 2147483648).emod 4294967296 - 2147483648

/-- Rust `as i16` applied to an `i64` value (truncation). -/
def int_as_i16 (v : Int) : Int :=
  (v + 32768).emod 65536 - 32768

/-- Rust `as i8` applied to an `i64` value (truncation). -/
def int_as_i8 (v : Int) : Int :=
  (v + 128).emod 256 - 128

/-- Rust `as u32` applied to an `i64` value (low 32 bits). -/
def int_as_u32 (v : Int) : Nat :=
  (v.emod 4294967296).toNat

/- ### AST (the shapes produced by the PEG grammar in src/compiler/script.rs) -/

/-- Grammar `TypeDecl = [is_ref] Ident`; `is_ref` models
`matches!(decl.is_ref, Some(ReferencePrefix))`. -/
structure TypeDecl where
  is_ref : Bool
  name : String
deriving DecidableEq, Repr

/-- Grammar `Prefix = ReferencePrefix | DeReferencePrefix` (the lvalue
prefixes `&` and `*`). -/
inductive Pfx where
  | ref
  | deref
deriving DecidableEq, Repr

/-- Grammar `DeReference = FieldAccess | ArrayIndex`; an ArrayIndex element
is the immediate token (a digit string). -/
inductive DeReference where
  | field_access (name : String)
  | array_index (element : String)
deriving DecidableEq, Repr

/-- Grammar `LValue = [Prefix] Ident {DeReference}`. -/
structure LValue where
  pfx : Option Pfx
  name : String
  derefs : List DeReference
deriving DecidableEq, Repr

/-- Grammar `Comparator`. -/
inductive Comparator where
  | equals | notEquals | lessThan | greaterThan | lessOrEqual | greaterOrEqual
deriving DecidableEq, Repr

mutual
/-- Grammar `RValue = FunctionCall | Immediate | LValue`. -/
inductive RValue where
  | function_call (c : FunctionCall)
  | immediate (s : String)
  | lvalue (l : LValue)

/-- Grammar `FunctionCall = Ident ( [RValue,*] )`. -/
inductive FunctionCall where
  | mk (name : String) (args : RValueList)

/-- Argument list of a call (a `Vec<RValue>`; spelled as its own inductive
so that the mutual recursion of the emitter is structural). -/
inductive RValueList where
  | nil
  | cons (head : RValue) (tail : RValueList)

/-- Grammar `Assignment = LValue [: TypeDecl] = RValue`. -/
inductive Assignment where
  | mk (left : LValue) (type_name : Option TypeDecl) (right : RValue)

/-- Grammar `Condition = RValue Comparator RValue`. -/
inductive Condition where
  | mk (left : RValue) (op : Comparator) (right : RValue)

/-- Grammar `IfStatement`. -/
inductive IfStatement where
  | mk (cond : Condition) (exprs : ExpressionList) (else_exprs : ExpressionList)

/-- Grammar `Return = return [RValue]` (an `Option<RValue>` value; spelled
as its own inductive for structural recursion). -/
inductive Return where
  | mk (value : OptRValue)

/-- `Option<RValue>`. -/
inductive OptRValue where
  | none
  | some (v : RValue)

/-- Grammar `Expression = Assignment | FunctionCall | Return | IfStatement`. -/
inductive Expression where
  | assignment (a : Assignment)
  | function_call (c : FunctionCall)
  | ret (r : Return)
  | if_statement (i : IfStatement)

/-- Body of a script or branch (a `Vec<Expression>`). -/
inductive ExpressionList where
  | nil
  | cons (head : Expression) (tail : ExpressionList)
end

/-- Grammar `TypedArgument = Ident : TypeDecl`. -/
structure TypedArgument where
  name : String
  type_name : TypeDecl
deriving DecidableEq, Repr

/-- Grammar `InputLine = fn ( [TypedArgument,*] )`. -/
structure InputLine where
  args : List TypedArgument
deriving DecidableEq, Repr

/-- `ExpressionList` emptiness (Rust `Vec::is_empty`). -/
def ExpressionList.isNil : ExpressionList → Bool
  | .nil => true
  | .cons _ _ => false

/-- `Vec::last` on an expression list. -/
def last_expr : ExpressionList → Option Expression
  | .nil => none
  | .cons e .nil => some e
  | .cons _ (.cons e rest) => last_expr (.cons e rest)

/- ### Compiler state (src/compiler/script.rs) -/

/-- src/compiler/script.rs `VariableLocation`: a capture value (`u32`) or a
stack offset (`i16`). -/
inductive VariableLocation where
  | specialImmediate (v : Nat)
  | stack (offset : Int)
deriving DecidableEq, Repr

/-- src/compiler/script.rs `VariableInfo`. -/
structure VariableInfo where
  var_type : Ty
  location : VariableLocation
deriving DecidableEq, Repr

/-- src/compiler/script.rs `Compiler`.  The borrowed `&TypeDatabase` is held
by value (it is never mutated); the `HashMap` of variables is an
association list whose `insert` conses, giving the same lookup semantics as
`HashMap::insert` (newest binding wins).  The Rust field `variables` is
named `vars` here (`variables` is a reserved Lean token). -/
structure Compiler where
  types : TypeDatabase
  vars : List (String × VariableInfo)
  instructions : List Instruction
  stack : Nat
  expr_num : Nat
deriving DecidableEq, Repr

/-- `MAX_STACK_SIZE` (src/compiler/script.rs line 98). -/
def MAX_STACK_SIZE : Nat := 4096

namespace Compiler

/-- `Compiler::create` (src/compiler/script.rs lines 114-122). -/
def create (types : TypeDatabase) : Compiler :=
  { types := types, vars := [], instructions := [], stack := 0, expr_num := 1 }

/-- `Compiler::get_instructions`. -/
def get_instructions (c : Compiler) : List Instruction := c.instructions

/-- Push one instruction (`self.instructions.push(..)`). -/
def push_instr (c : Compiler) (i : Instruction) : Compiler :=
  { c with instructions := c.instructions ++ [i] }

/-- `Compiler::capture` (src/compiler/script.rs lines 149-160): the `i64`
value is stored as `value as u32` with unsigned 64-bit integer type. -/
def capture (c : Compiler) (name : String) (value : Int) : Compiler :=
  { c with vars :=
      (name, ⟨⟨.integer ⟨64, 64, false⟩, 0⟩, .specialImmediate (int_as_u32 value)⟩)
        :: c.vars }

/-- `Compiler::type_from_decl` (src/compiler/script.rs lines 168-182). -/
def type_from_decl (c : Compiler) (decl : TypeDecl) : Except Error Ty :=
  match c.types.get_type_by_name decl.name with
  | none => .error (.semantics c.expr_num msg_type_not_found)
  | some ty =>
    if decl.is_ref then .ok { ty with num_refs := ty.num_refs + 1 } else .ok ty

/-- `Compiler::get_variable_by_name` (src/compiler/script.rs lines 190-196). -/
def get_variable_by_name (c : Compiler) (name : String) : Except Error VariableInfo :=
  match c.vars.lookup name with
  | some info => .ok info
  | none => .error (.semantics c.expr_num msg_no_variable)

/-- `Compiler::parse_immediate` (src/compiler/script.rs lines 204-210);
the caller passes the result of the `FromStr` parse for the concrete
numeric type. -/
def parse_immediate (c : Compiler) (parsed : Option Nat) : Except Error Nat :=
  match parsed with
  | some imm => .ok imm
  | none => .error (.semantics c.expr_num msg_parse_immediate_failed)

/-- `Compiler::get_stack` (src/compiler/script.rs lines 213-215). -/
def get_stack (c : Compiler) : Int := -(c.stack : Int)

/-- `Compiler::push_stack` (src/compiler/script.rs lines 224-235). -/
def push_stack (c : Compiler) (size : Nat) : Except Error (Int × Compiler) :=
  if MAX_STACK_SIZE < c.stack + size then
    .error (.semantics c.expr_num msg_stack_size_exceeded)
  else
    let c' := { c with stack := c.stack + size }
    .ok (c'.get_stack, c')

end Compiler

/-- `matches!(b, BaseType::Void)`. -/
def BaseType.is_void : BaseType → Bool
  | .void => true
  | _ => false

/-- `Register::from_num` (bpf-ins). -/
def Register.from_num : Nat → Option Register
  | 0 => some .r0
  | 1 => some .r1
  | 2 => some .r2
  | 3 => some .r3
  | 4 => some .r4
  | 5 => some .r5
  | 6 => some .r6
  | 7 => some .r7
  | 8 => some .r8
  | 9 => some .r9
  | 10 => some .r10
  | _ => none

/-- The instruction sequence produced by the loops of
`emit_init_stack_range` (src/compiler/script.rs lines 245-286): `size/8`
8-byte stores, then up to one 4-, 2- and 1-byte store, at consecutive
offsets, each storing the suitably truncated `v64`. -/
def init_range_instrs (offset : Int) (v64 : Int) (size : Nat) : List Instruction :=
  let n8 := size / 8
  let r8 := size % 8
  let n4 := r8 / 4
  let r4 := r8 % 4
  let n2 := r4 / 2
  let r2 := r4 % 2
  ((List.range n8).map fun i => Instruction.store64 .r10 (offset + 8 * (i : Int)) v64)
  ++ ((List.range n4).map fun i =>
        Instruction.store32 .r10 (offset + 8 * (n8 : Int) + 4 * (i : Int)) (int_as_i32 v64))
  ++ ((List.range n2).map fun i =>
        Instruction.store16 .r10 (offset + 8 * (n8 : Int) + 4 * (n4 : Int) + 2 * (i : Int))
          (int_as_i16 v64))
  ++ ((List.range r2).map fun i =>
        Instruction.store8 .r10
          (offset + 8 * (n8 : Int) + 4 * (n4 : Int) + 2 * (n2 : Int) + (i : Int))
          (int_as_i8 v64))

namespace Compiler

/-- `Compiler::emit_init_stack_range` (src/compiler/script.rs lines
245-286).  `value` is the `i8` byte value.  The Rust `v64` is the
bitwise-or of the eight byte-shifted copies of the sign-extended value:
for a non-negative byte the lanes are disjoint, so `v64 = value *
0x0101010101010101`; for a negative byte the sign extension of the lowest
copy already fills every higher lane with ones, so `v64 = value`. -/
def emit_init_stack_range (c : Compiler) (offset : Int) (value : Int)
    (size : Nat) : Compiler :=
  let v64 := if 0 ≤ value then value * 72340172838076673 else value
  { c with instructions := c.instructions ++ init_range_instrs offset v64 size }

/-- `Compiler::emit_push_immediate` (src/compiler/script.rs lines
295-383). -/
def emit_push_immediate (c : Compiler) (imm_str : String) (cast_type : Ty)
    (use_offset : Option Int) : Except Error ((Int × Ty) × Compiler) := do
  let size := cast_type.get_size
  if size = 0 ∧ ¬ cast_type.base_type.is_void then
    .error (.semantics c.expr_num msg_zero_sized)
  else do
    let (offset, c1) ← match use_offset with
      | some off => Except.ok (off, c)
      | none => c.push_stack size
    if cast_type.is_pointer then do
      let imm ← c1.parse_immediate (parse_in_range imm_str 255)
      .ok ((offset, cast_type), c1.push_instr (.store8 .r10 offset (as_i8 imm)))
    else if cast_type.base_type.is_void then do
      -- No type was given so a 64-bit unsigned integer is inferred
      let imm ← c1.parse_immediate (parse_in_range imm_str 9223372036854775807)
      .ok ((offset, ⟨.integer ⟨64, 64, false⟩, 0⟩),
        c1.push_instr (.store64 .r10 offset (imm : Int)))
    else
      match cast_type.base_type with
      | .integer integer => do
        let c2 ← match size, integer.is_signed with
          | 1, false => do
            let imm ← c1.parse_immediate (parse_in_range imm_str 255)
            Except.ok (c1.push_instr (.store8 .r10 offset (as_i8 imm)))
          | 1, true => do
            let imm ← c1.parse_immediate (parse_in_range imm_str 127)
            Except.ok (c1.push_instr (.store8 .r10 offset (imm : Int)))
          | 2, false => do
            let imm ← c1.parse_immediate (parse_in_range imm_str 65535)
            Except.ok (c1.push_instr (.store16 .r10 offset (as_i16 imm)))
          | 2, true => do
            let imm ← c1.parse_immediate (parse_in_range imm_str 32767)
            Except.ok (c1.push_instr (.store16 .r10 offset (imm : Int)))
          | 4, false => do
            let imm ← c1.parse_immediate (parse_in_range imm_str 4294967295)
            Except.ok (c1.push_instr (.store32 .r10 offset (as_i32 imm)))
          | 4, true => do
            let imm ← c1.parse_immediate (parse_in_range imm_str 2147483647)
            Except.ok (c1.push_instr (.store32 .r10 offset (imm : Int)))
          | 8, false => do
            let imm ← c1.parse_immediate (parse_in_range imm_str 18446744073709551615)
            Except.ok (c1.push_instr (.store64 .r10 offset (as_i64 imm)))
          | 8, true => do
            let imm ← c1.parse_immediate (parse_in_range imm_str 9223372036854775807)
            Except.ok (c1.push_instr (.store64 .r10 offset (imm : Int)))
          | _, _ => Except.error (.semantics c1.expr_num msg_bits_unsupported)
        .ok ((offset, cast_type), c2)
      | _ => do
        let imm ← c1.parse_immediate (parse_in_range imm_str 127)
        .ok ((offset, cast_type), c1.emit_init_stack_range offset (imm : Int) size)

/-- `Compiler::emit_push_register` (src/compiler/script.rs lines 392-402). -/
def emit_push_register (c : Compiler) (reg : Register) (use_offset : Option Int) :
    Except Error (Int × Compiler) := do
  let (offset, c1) ← match use_offset with
    | some off => Except.ok (off, c)
    | none => c.push_stack 8
  .ok (offset, c1.push_instr (.storex64 .r10 offset reg))

/-- `Compiler::emit_deref_register_to_stack` (src/compiler/script.rs lines
414-427): the unconditional probe_read helper call sequence. -/
def emit_deref_register_to_stack (c : Compiler) (reg : Register)
    (deref_type : Ty) (offset : Int) : Compiler :=
  (((((c.push_instr (.movx64 .r1 .r10)).push_instr
      (.add64 .r1 offset)).push_instr
      (.mov64 .r2 (deref_type.get_size : Int))).push_instr
      (.movx64 .r3 reg)).push_instr
      (.call 4))

/-- `Compiler::get_field_access` (src/compiler/script.rs lines 528-553). -/
def get_field_access (c : Compiler) (structure_ty : Ty) (field_name : String) :
    Except Error (Nat × Ty) := do
  match structure_ty.base_type with
  | .struct s =>
    match s.fields.lookup field_name with
    | none => .error (.semantics c.expr_num msg_no_field)
    | some field =>
      if field.offset % 8 ≠ 0 then .error (.semantics c.expr_num msg_bitfield)
      else
        match c.types.get_type_by_id field.type_id with
        | none => .error (.semantics c.expr_num msg_bad_type_id)
        | some field_type => .ok (field.offset / 8, field_type)
  | _ => .error (.semantics c.expr_num msg_non_struct)

/-- `Compiler::get_array_index` (src/compiler/script.rs lines 561-585).
The bounds check is the literal `index > array.num_elements` of the
source. -/
def get_array_index (c : Compiler) (array_ty : Ty) (index : String) :
    Except Error (Nat × Ty) := do
  match array_ty.base_type with
  | .array array => do
    let index ← c.parse_immediate (parse_in_range index 4294967295)
    if array.num_elements < index then
      .error (.semantics c.expr_num msg_oob_array)
    else
      match c.types.get_type_by_id array.element_type_id with
      | none => .error (.semantics c.expr_num msg_bad_type_id)
      | some element_type => .ok (element_type.get_size * index, element_type)
  | _ => .error (.semantics c.expr_num msg_non_array)

/-- The loop of `Compiler::get_deref_offset` (src/compiler/script.rs lines
598-615), accumulating a `u32` byte offset. -/
def get_deref_offset_loop (c : Compiler) (offset : Nat) (cur_type : Ty) :
    List DeReference → Except Error (Nat × Ty)
  | [] => .ok (offset, cur_type)
  | d :: rest => do
    if cur_type.is_pointer then
      .error (.semantics c.expr_num msg_indirection)
    else do
      let (off, ty) ← match d with
        | .field_access name => c.get_field_access cur_type name
        | .array_index element => c.get_array_index cur_type element
      get_deref_offset_loop c (offset + off) ty rest

/-- `Compiler::get_deref_offset` (src/compiler/script.rs lines 593-621);
the final `u32 → i16` conversion fails (as a semantics error via
`context`) when the offset exceeds 32767. -/
def get_deref_offset (c : Compiler) (ty : Ty) (derefs : List DeReference) :
    Except Error (Int × Ty) := do
  let (offset, cur) ← get_deref_offset_loop c 0 ty derefs
  if 32767 < offset then .error (.semantics c.expr_num msg_deref_too_large)
  else .ok ((offset : Int), cur)

/-- `Compiler::emit_field_access` (src/compiler/script.rs lines 680-692). -/
def emit_field_access (c : Compiler) (reg : Register) (structure_ty : Ty)
    (name : String) : Except Error (Ty × Compiler) := do
  let (offset, field_type) ← c.get_field_access structure_ty name
  if 0 < offset then
    .ok (field_type, c.push_instr (.add64 reg (offset : Int)))
  else .ok (field_type, c)

/-- `Compiler::emit_index_array` (src/compiler/script.rs lines 702-714). -/
def emit_index_array (c : Compiler) (reg : Register) (array_ty : Ty)
    (element : String) : Except Error (Ty × Compiler) := do
  let (offset, element_type) ← c.get_array_index array_ty element
  if 0 < offset then
    .ok (element_type, c.push_instr (.add64 reg (offset : Int)))
  else .ok (element_type, c)

/-- `Compiler::emit_apply_derefs_to_reg` (src/compiler/script.rs lines
725-748). -/
def emit_apply_derefs_to_reg (c : Compiler) (reg : Register) (var_type : Ty) :
    List DeReference → Except Error (Ty × Compiler)
  | [] => .ok (var_type, c)
  | d :: rest => do
    -- a deref through a pointer loads the address first
    let c1 := if var_type.is_pointer then c.push_instr (.loadx64 reg reg 0) else c
    let (next_type, c2) ← match d with
      | .field_access name => c1.emit_field_access reg var_type name
      | .array_index element => c1.emit_index_array reg var_type element
    emit_apply_derefs_to_reg c2 reg next_type rest

/-- `Compiler::emit_set_register_to_lvalue_addr` (src/compiler/script.rs
lines 759-782). -/
def emit_set_register_to_lvalue_addr (c : Compiler) (reg : Register)
    (lval : LValue) : Except Error (Ty × Compiler) := do
  let info ← c.get_variable_by_name lval.name
  match info.location with
  | .specialImmediate _ =>
    .error (.semantics c.expr_num msg_capture_assign)
  | .stack o =>
    let c1 := (c.push_instr (.movx64 reg .r10)).push_instr (.add64 reg o)
    emit_apply_derefs_to_reg c1 reg info.var_type lval.derefs

/-- `Compiler::emit_set_register_from_lvalue` (src/compiler/script.rs lines
794-858). -/
def emit_set_register_from_lvalue (c : Compiler) (reg : Register)
    (lval : LValue) (load_type : Option MemoryOpLoadType) :
    Except Error Compiler := do
  let info ← c.get_variable_by_name lval.name
  match info.location with
  | .specialImmediate v =>
    if lval.derefs ≠ [] then
      .error (.semantics c.expr_num msg_capture_deref)
    else
      .ok (c.push_instr (.loadtype reg (v : Int) (load_type.getD .void)))
  | .stack _ => do
    let (var_type, c1) ← c.emit_set_register_to_lvalue_addr reg lval
    -- with a reference prefix the register already holds the value
    if lval.pfx = some .ref then .ok c1
    else do
      let c2 ← match var_type.get_size with
        | 1 => Except.ok (c1.push_instr (.loadx8 reg reg 0))
        | 2 => Except.ok (c1.push_instr (.loadx16 reg reg 0))
        | 4 => Except.ok (c1.push_instr (.loadx32 reg reg 0))
        | 8 => Except.ok (c1.push_instr (.loadx64 reg reg 0))
        | _ => Except.error (.semantics c1.expr_num msg_too_large_reg)
      if lval.pfx = some .deref then
        if ¬ var_type.is_pointer then
          .error (.semantics c2.expr_num msg_non_pointer)
        else .ok (c2.push_instr (.loadx64 reg reg 0))
      else .ok c2

/-- `Compiler::emit_push_lvalue` (src/compiler/script.rs lines 438-480). -/
def emit_push_lvalue (c : Compiler) (lval : LValue) (cast_type : Ty)
    (use_offset : Option Int) : Except Error ((Int × Ty) × Compiler) := do
  let (var_type, c1) ← c.emit_set_register_to_lvalue_addr .r6 lval
  -- a void cast type deduces the type of the lvalue
  let real_type := if cast_type.base_type.is_void then var_type else cast_type
  if real_type.get_size ≠ var_type.get_size then
    .error (.semantics c1.expr_num msg_diff_sizes)
  else do
    let (offset, c2) ← match use_offset with
      | some off => Except.ok (off, c1)
      | none => c1.push_stack real_type.get_size
    match lval.pfx with
    | none =>
      .ok ((offset, real_type), c2.emit_deref_register_to_stack .r6 real_type offset)
    | some .deref => .error (.semantics c2.expr_num msg_deref_unsupported)
    | some .ref =>
      .ok ((offset, { real_type with num_refs := real_type.num_refs + 1 }),
        c2.push_instr (.storex64 .r10 offset .r6))

/-- `Comparator → JumpOperation` map of `emit_if_statement`
(src/compiler/script.rs lines 945-952). -/
def comparator_to_jump : Comparator → JumpOperation
  | .equals => .ifEqual
  | .notEquals => .ifNotEqual
  | .greaterThan => .ifGreater
  | .greaterOrEqual => .ifGreaterOrEqual
  | .lessThan => .ifLessThan
  | .lessOrEqual => .ifLessThanOrEqual

mutual

/-- `Compiler::emit_push_rvalue` (src/compiler/script.rs lines 491-520). -/
def emit_push_rvalue (c : Compiler) (rval : RValue) (cast_type : Ty)
    (use_offset : Option Int) : Except Error ((Int × Ty) × Compiler) :=
  match rval with
  | .immediate imm_str => c.emit_push_immediate imm_str cast_type use_offset
  | .lvalue lval => c.emit_push_lvalue lval cast_type use_offset
  | .function_call fc =>
    match cast_type.base_type with
    | .integer integer =>
      if integer.get_size ≠ 8 then
        .error (.semantics c.expr_num msg_fn_ret_64)
      else do
        let c1 ← emit_call c fc
        let (offset, c2) ← c1.emit_push_register .r0 use_offset
        .ok ((offset, cast_type), c2)
    | _ => .error (.semantics c.expr_num msg_fn_ret_int)

/-- `Compiler::emit_assign` (src/compiler/script.rs lines 628-670). -/
def emit_assign (c : Compiler) (assign : Assignment) : Except Error Compiler :=
  match assign with
  | .mk left type_name right => do
    let r : Ty × Option Int × Bool ←
      match c.vars.lookup left.name with
      | some info =>
        if type_name.isSome then
          .error (.semantics c.expr_num msg_retype)
        else
          (match info.location with
          | .stack off => do
            let (rel_off, offset_type) ← c.get_deref_offset info.var_type left.derefs
            Except.ok (offset_type, some (off + rel_off), false)
          | .specialImmediate _ =>
            .error (.semantics c.expr_num msg_reassign))
      | none =>
        match type_name with
        | some tn => do
          let assign_type ← c.type_from_decl tn
          Except.ok (assign_type, (none : Option Int), true)
        | none => Except.ok (ty_default, (none : Option Int), true)
    let (cast_type, use_offset, new_variable) := r
    let ((offset, new_type), c1) ← emit_push_rvalue c right cast_type use_offset
    if new_variable then
      .ok { c1 with vars := (left.name, ⟨new_type, .stack offset⟩) :: c1.vars }
    else .ok c1

/-- `Compiler::emit_set_register_from_rvalue` (src/compiler/script.rs lines
870-900).  For an immediate, a present load type emits `loadtype` with an
`i64` immediate, otherwise `mov64` with an `i32` immediate. -/
def emit_set_register_from_rvalue (c : Compiler) (reg : Register)
    (rval : RValue) (load_type : Option MemoryOpLoadType) :
    Except Error Compiler :=
  match rval with
  | .immediate imm_str =>
    (match load_type with
    | some lt => do
      let imm ← c.parse_immediate (parse_in_range imm_str 9223372036854775807)
      Except.ok (c.push_instr (.loadtype reg (imm : Int) lt))
    | none => do
      let imm ← c.parse_immediate (parse_in_range imm_str 2147483647)
      Except.ok (c.push_instr (.mov64 reg (imm : Int))))
  | .lvalue lval => c.emit_set_register_from_lvalue reg lval load_type
  | .function_call fc => do
    let c1 ← emit_call c fc
    if reg = Register.r0 then .ok c1
    else .ok (c1.push_instr (.movx64 reg .r0))

/-- `Compiler::emit_call` (src/compiler/script.rs lines 907-932). -/
def emit_call (c : Compiler) (fc : FunctionCall) : Except Error Compiler :=
  match fc with
  | .mk name args =>
    match helpers_from_string name with
    | none => .error (.semantics c.expr_num msg_unknown_function)
    | some helper => do
      let c1 ← emit_call_args c args 0 (helper_get_arg_types helper)
      .ok (c1.push_instr (.call helper))

/-- The argument loop of `emit_call` (src/compiler/script.rs lines
917-928). -/
def emit_call_args (c : Compiler) (args : RValueList) (i : Nat)
    (arg_types : List MemoryOpLoadType) : Except Error Compiler :=
  match args with
  | .nil => .ok c
  | .cons arg rest => do
    let c1 ← match i with
      | 0 => emit_set_register_from_rvalue c .r1 arg (some (arg_types.getD 0 .void))
      | 1 => emit_set_register_from_rvalue c .r2 arg (some (arg_types.getD 1 .void))
      | 2 => emit_set_register_from_rvalue c .r3 arg (some (arg_types.getD 2 .void))
      | 3 => emit_set_register_from_rvalue c .r4 arg (some (arg_types.getD 3 .void))
      | 4 => emit_set_register_from_rvalue c .r5 arg (some (arg_types.getD 4 .void))
      | _ => .error (.semantics c.expr_num msg_call_args)
    emit_call_args c1 rest (i + 1) arg_types

/-- `Compiler::emit_if_statement` (src/compiler/script.rs lines 939-982).
The two `emit_body` calls are inlined as `emit_body_loop` followed by the
final `optimize` run of `emit_body`. -/
def emit_if_statement (c : Compiler) (ifs : IfStatement) : Except Error Compiler :=
  match ifs with
  | .mk cond exprs else_exprs =>
    match cond with
    | .mk left op right => do
      let c1 ← emit_set_register_from_rvalue c .r8 left none
      let c2 ← emit_set_register_from_rvalue c1 .r9 right none
      let c3 : Compiler := { c2 with instructions := optimize c2.instructions }
      let c4 := c3.push_instr (.jmp_ifx .r8 (comparator_to_jump op) .r9 1)
      let else_index := c4.instructions.length
      let c5 := c4.push_instr (.jmp_abs 0)
      let c6x ← emit_body_loop c5 exprs
      let c6 : Compiler := { c6x with instructions := optimize c6x.instructions }
      let end_index := c6.instructions.length
      let c7 := if ¬ else_exprs.isNil then c6.push_instr (.jmp_abs 0) else c6
      let offset := c7.instructions.length - else_index - 1
      if 32767 < offset then .error .integerConversion
      else
        let c8 : Compiler :=
          { c7 with instructions :=
              c7.instructions.set else_index (.jmp_abs (offset : Int)) }
        if ¬ else_exprs.isNil then do
          let c9x ← emit_body_loop c8 else_exprs
          let c9 : Compiler := { c9x with instructions := optimize c9x.instructions }
          let offset2 := c9.instructions.length - end_index - 1
          if 32767 < offset2 then .error .integerConversion
          else
            .ok { c9 with instructions :=
                    c9.instructions.set end_index (.jmp_abs (offset2 : Int)) }
        else .ok c8

/-- `Compiler::emit_return` (src/compiler/script.rs lines 989-1002). -/
def emit_return (c : Compiler) (ret : Return) : Except Error Compiler :=
  match ret with
  | .mk .none =>
    .ok ((c.push_instr (.mov64 .r0 0)).push_instr .exit)
  | .mk (.some value) => do
    let c1 ← emit_set_register_from_rvalue c .r0 value none
    .ok (c1.push_instr .exit)

/-- The expression loop of `Compiler::emit_body` (src/compiler/script.rs
lines 1042-1060): bump `expr_num`, dispatch on the expression kind. -/
def emit_body_loop : Compiler → ExpressionList → Except Error Compiler
  | c, .nil => .ok c
  | c, .cons e rest => do
    let c1 : Compiler := { c with expr_num := c.expr_num + 1 }
    let c2 ← match e with
      | .assignment a => emit_assign c1 a
      | .function_call fc => emit_call c1 fc
      | .if_statement ifs => emit_if_statement c1 ifs
      | .ret r => emit_return c1 r
    emit_body_loop c2 rest

end

/-- `Compiler::emit_body` (src/compiler/script.rs lines 1042-1065): the
expression loop followed by `self.instructions = optimize(..)`. -/
def emit_body (c : Compiler) (exprs : ExpressionList) : Except Error Compiler := do
  let c1 ← emit_body_loop c exprs
  .ok { c1 with instructions := optimize c1.instructions }

/-- The argument loop of `Compiler::emit_prologue` (src/compiler/script.rs
lines 1021-1032). -/
def emit_prologue_loop : Compiler → List TypedArgument → Nat → Except Error Compiler
  | c, [], _ => .ok c
  | c, arg :: rest, i => do
    -- Register::from_num((i + 1) as u8).expect(..): i + 1 is at most 5 here
    let register := (Register.from_num (i + 1)).getD .r0
    let arg_type ← c.type_from_decl arg.type_name
    let (offset, c1) ← c.emit_push_register register none
    let c2 : Compiler :=
      { c1 with vars := (arg.name, ⟨arg_type, .stack offset⟩) :: c1.vars }
    emit_prologue_loop c2 rest (i + 1)

/-- `Compiler::emit_prologue` (src/compiler/script.rs lines 1010-1035). -/
def emit_prologue (c : Compiler) (input : InputLine) : Except Error Compiler :=
  if 5 < input.args.length then
    .error (.semantics c.expr_num msg_fn_args)
  else emit_prologue_loop c input.args 0

/-- `Compiler::compile` (src/compiler/script.rs lines 1086-1100), from the
parsed AST (the PEG parse step is external generated code). -/
def compile (c : Compiler) (input : InputLine) (exprs : ExpressionList) :
    Except Error Compiler := do
  let c1 ← emit_prologue c input
  let c2 ← emit_body c1 exprs
  -- Programs implicitly return 0 when no return statement is specified.
  match last_expr exprs with
  | some (.ret _) => .ok c2
  | _ => emit_return c2 (.mk .none)

end Compiler

/- ### Concrete inputs used by the claims -/

/-- A type database that registers `int` as a 4-byte signed integer
(claim C1). -/
def c1_database : TypeDatabase :=
  (TypeDatabase.default.add_integer (some ("int")) 4 true).1

/-- The input line of `fn(a: int)`. -/
def c1_input : InputLine := ⟨[⟨("a"), ⟨false, ("int")⟩⟩]⟩

/-- The body `return a`. -/
def c1_exprs : ExpressionList :=
  .cons (.ret (.mk (.some (.lvalue ⟨none, ("a"), []⟩)))) .nil

/-- Claim C2 counterexample input: two consecutive foldable
mov+add+load windows over the same registers. -/
def c2_input : List Instruction :=
  [.movx64 .r2 .r1, .add64 .r2 8, .loadx .r2 .r2 0 .dword,
   .movx64 .r2 .r1, .add64 .r2 8, .loadx .r2 .r2 0 .dword]

/-- Claim C3 counterexample input: a foldable window, a stray add, and a
second foldable window that folds to a zero-offset load. -/
def c3_input : List Instruction :=
  [.movx64 .r1 .r2, .add64 .r1 8, .loadx .r1 .r1 0 .dword,
   .add64 .r3 4,
   .movx64 .r4 .r5, .add64 .r4 0, .loadx .r4 .r4 0 .dword]

/-- Claim C4: a database with `u32` at id 0 and a one-element `u32` array
at id 1. -/
def c4_database : TypeDatabase :=
  ⟨[⟨.integer ⟨32, 32, false⟩, 0⟩, ⟨.array ⟨0, 1, 4⟩, 0⟩],
   [(("u32"), 0), (("arr1"), 1)]⟩

/-- A compiler over the C4 database. -/
def c4_compiler : Compiler := Compiler.create c4_database

/-- The one-element array type of the C4 database. -/
def c4_array_type : Ty := ⟨.array ⟨0, 1, 4⟩, 0⟩

/-- Claim C5 witness state: a u64 variable `x` on the stack at offset -8. -/
def c5_compiler : Compiler :=
  { types := TypeDatabase.default,
    vars := [(("x"), ⟨⟨.integer ⟨64, 64, false⟩, 0⟩, .stack (-8)⟩)],
    instructions := [], stack := 8, expr_num := 1 }

/-- The lvalue `x` with no prefix and no derefs. -/
def c5_lval : LValue := ⟨none, ("x"), []⟩

/-- The compiler state after compiling the empty program `fn()` over the
C1 database (used to witness the stack-monotonicity part of C6). -/
def c6_empty_out : Compiler :=
  { types := c1_database, vars := [], instructions := [.mov64 .r0 0, .exit],
    stack := 0, expr_num := 1 }

/-- Claim C8 witness database: one type bound to the name `t`. -/
def c8_database : TypeDatabase :=
  ⟨[⟨.integer ⟨32, 32, false⟩, 0⟩], [(("t"), 0)]⟩

/-- A u16 integer type used as the second C8 witness payload. -/
def c8_new_type : Ty := ⟨.integer ⟨16, 16, false⟩, 0⟩

/-- Claim C9: a pointer type (one reference to an 8-bit unsigned
integer). -/
def c9_pointer_type : Ty := ⟨.integer ⟨8, 8, false⟩, 1⟩

/-- Whether the last top-level expression of a body is a `Return` (the
guard `matches!(last, Some(Expression::Return(_)))` of `compile`). -/
def last_is_return (exprs : ExpressionList) : Bool :=
  match last_expr exprs with
  | some (.ret _) => true
  | _ => false

/-- The compiler state produced by `emit_push_lvalue` on `c5_compiler` and
`c5_lval` with a void cast type and no reuse offset (the C5 witness
output). -/
def c5_out : Compiler :=
  { types := TypeDatabase.default,
    vars := [(("x"), ⟨⟨.integer ⟨64, 64, false⟩, 0⟩, .stack (-8)⟩)],
    instructions :=
      [.movx64 .r6 .r10, .add64 .r6 (-8),
       .movx64 .r1 .r10, .add64 .r1 (-16), .mov64 .r2 8, .movx64 .r3 .r6,
       .call 4],
    stack := 16, expr_num := 1 }

/-- The compiler state produced by compiling `fn(a: int) return a` over the
C1 database (the C7 counterexample: its penultimate instruction is a load,
not `mov64 R0`). -/
def c7_out : Compiler :=
  { types := ⟨[⟨.integer ⟨32, 32, true⟩, 0⟩], [(("int"), 0)]⟩,
    vars := [(("a"), ⟨⟨.integer ⟨32, 32, true⟩, 0⟩, .stack (-8)⟩)],
    instructions :=
      [.storex64 .r10 (-8) .r1, .loadx .r0 .r10 (-8) .word, .exit],
    stack := 8, expr_num := 2 }

/-- The compiler state produced by compiling the empty program over the C4
database (used to witness the amended C7 theorem). -/
def c7_empty_out : Compiler :=
  { types := c4_database, vars := [], instructions := [.mov64 .r0 0, .exit],
    stack := 0, expr_num := 1 }

/- ### Optimizer lemmas -/
theorem option_ext {α : Type} {a b : Option α}
    (h : ∀ v, a = some v ↔ b = some v) : a = b := by
  cases a with
  | none =>
    cases b with
    | none => rfl
    | some v => exact (h v).2 rfl
  | some v => exact ((h v).1 rfl).symm

theorem optimize_mov_add_load_eq_some (inp : List Instruction)
    (ins : Instruction) (rem : List Instruction) :
    optimize_mov_add_load inp = some (ins, rem) ↔
      ∃ a b d n d2 s2 w,
        inp = .movx64 a b :: .add64 d n :: .loadx d2 s2 0 w :: rem ∧
        ins = .loadx a b n w ∧ -32768 ≤ n ∧ n ≤ 32767 := by
  constructor
  · intro h
    unfold optimize_mov_add_load at h
    split at h
    case h_2 => exact absurd h (by simp)
    case h_1 i0 i1 i2 rem' =>
      split at h
      · exact absurd h (by simp)
      case h_2 w hmem =>
        dsimp only at h
        split_ifs at h with h1 hc
        obtain ⟨hc0, hc1, hc2⟩ := hc
        rw [Option.some.injEq, Prod.mk.injEq] at h
        obtain ⟨hins, hrem⟩ := h
        subst hrem
        refine ⟨i0.get_dst_reg, i0.get_src_reg, i1.get_dst_reg, i1.get_imm,
          i2.get_dst_reg, i2.get_src_reg, w, ?_, hins.symm, h1.1, h1.2⟩
        rw [hc0, hc1, hc2]
  · rintro ⟨a, b, d, n, d2, s2, w, rfl, rfl, h1, h2⟩
    simp [optimize_mov_add_load, Instruction.get_dst_reg,
      Instruction.get_src_reg, Instruction.get_imm,
      Instruction.get_memory_size, h1, h2]

theorem optimize_add_load_eq_some (inp : List Instruction)
    (ins : Instruction) (rem : List Instruction) :
    optimize_add_load inp = some (ins, rem) ↔
      ∃ a n d s w,
        inp = .add64 a n :: .loadx d s 0 w :: rem ∧
        ins = .loadx a a n w ∧ -32768 ≤ n ∧ n ≤ 32767 := by
  constructor
  · intro h
    unfold optimize_add_load at h
    split at h
    case h_2 => exact absurd h (by simp)
    case h_1 i0 i1 rem' =>
      split at h
      · exact absurd h (by simp)
      case h_2 w hmem =>
        dsimp only at h
        split_ifs at h with h1 hc
        obtain ⟨hc0, hc1⟩ := hc
        rw [Option.some.injEq, Prod.mk.injEq] at h
        obtain ⟨hins, hrem⟩ := h
        subst hrem
        refine ⟨i0.get_dst_reg, i0.get_imm, i1.get_dst_reg, i1.get_src_reg, w,
          ?_, hins.symm, h1.1, h1.2⟩
        rw [hc0, hc1]
  · rintro ⟨a, n, d, s, w, rfl, rfl, h1, h2⟩
    simp [optimize_add_load, Instruction.get_dst_reg,
      Instruction.get_src_reg, Instruction.get_imm,
      Instruction.get_memory_size, h1, h2]

theorem pattern_mov_add_load_eq_some (inp : List Instruction)
    (ins : Instruction) (rem : List Instruction) :
    pattern_mov_add_load inp = some (ins, rem) ↔
      ∃ a b d n d2 s2 w,
        inp = .movx64 a b :: .add64 d n :: .loadx d2 s2 0 w :: rem ∧
        ins = .loadx a b n w ∧ -32768 ≤ n ∧ n ≤ 32767 := by
  constructor
  · intro h
    unfold pattern_mov_add_load at h
    split at h
    case h_2 => exact absurd h (by simp)
    case h_1 a b d n d2 s2 off w rem' =>
      split_ifs at h with h1
      rw [Option.some.injEq, Prod.mk.injEq] at h
      obtain ⟨hins, hrem⟩ := h
      subst hrem
      exact ⟨a, b, d, n, d2, s2, w, by rw [h1.1], hins.symm, h1.2.1, h1.2.2⟩
  · rintro ⟨a, b, d, n, d2, s2, w, rfl, rfl, h1, h2⟩
    simp [pattern_mov_add_load, h1, h2]

theorem pattern_add_load_eq_some (inp : List Instruction)
    (ins : Instruction) (rem : List Instruction) :
    pattern_add_load inp = some (ins, rem) ↔
      ∃ a n d s w,
        inp = .add64 a n :: .loadx d s 0 w :: rem ∧
        ins = .loadx a a n w ∧ -32768 ≤ n ∧ n ≤ 32767 := by
  constructor
  · intro h
    unfold pattern_add_load at h
    split at h
    case h_2 => exact absurd h (by simp)
    case h_1 a n d s off w rem' =>
      split_ifs at h with h1
      rw [Option.some.injEq, Prod.mk.injEq] at h
      obtain ⟨hins, hrem⟩ := h
      subst hrem
      exact ⟨a, n, d, s, w, by rw [h1.1], hins.symm, h1.2.1, h1.2.2⟩
  · rintro ⟨a, n, d, s, w, rfl, rfl, h1, h2⟩
    simp [pattern_add_load, h1, h2]

theorem optimize_mov_add_load_eq_pattern (inp : List Instruction) :
    optimize_mov_add_load inp = pattern_mov_add_load inp := by
  apply option_ext
  intro v
  rw [show v = (v.1, v.2) from rfl, optimize_mov_add_load_eq_some,
    pattern_mov_add_load_eq_some]

theorem optimize_add_load_eq_pattern (inp : List Instruction) :
    optimize_add_load inp = pattern_add_load inp := by
  apply option_ext
  intro v
  rw [show v = (v.1, v.2) from rfl, optimize_add_load_eq_some,
    pattern_add_load_eq_some]

theorem optimize_round_eq_cascade_round (inp : List Instruction) :
    optimize_round inp = cascade_round inp := by
  unfold optimize_round OPTIMIZERS cascade_round
  simp only [List.foldl, run_optimizer, optimize_mov_add_load_eq_pattern,
    optimize_add_load_eq_pattern, no_optimization]
  cases h1 : pattern_mov_add_load inp with
  | none =>
    simp only
    cases h2 : pattern_add_load inp with
    | none =>
      simp only
      cases inp with
      | nil => rfl
      | cons i rest => rfl
    | some v =>
      obtain ⟨ins, rem⟩ := v
      simp only
      cases rem with
      | nil => rfl
      | cons i rest => rfl
  | some v =>
    obtain ⟨ins, rem⟩ := v
    simp only
    cases h2 : pattern_add_load rem with
    | none =>
      simp only
      cases rem with
      | nil => rfl
      | cons i rest => rfl
    | some v2 =>
      obtain ⟨ins2, rem2⟩ := v2
      simp only
      cases rem2 with
      | nil => rfl
      | cons i rest => rfl

theorem cascade_round_spec (inp : List Instruction) (h : inp ≠ []) :
    ((cascade_round inp).1 ++ (cascade_round inp).2 = inp ∨
      (cascade_round inp).1.length + (cascade_round inp).2.length < inp.length) ∧
    (cascade_round inp).2.length < inp.length := by
  unfold cascade_round
  cases h1 : pattern_mov_add_load inp with
  | some v =>
    obtain ⟨ins, rem⟩ := v
    obtain ⟨a, b, d, n, d2, s2, w, hshape, -, -, -⟩ :=
      (pattern_mov_add_load_eq_some inp ins rem).1 h1
    have hlen : inp.length = rem.length + 3 := by rw [hshape]; simp
    simp only
    cases h2 : pattern_add_load rem with
    | some v2 =>
      obtain ⟨ins2, rem2⟩ := v2
      obtain ⟨a2, n2, d3, s3, w2, hshape2, -, -, -⟩ :=
        (pattern_add_load_eq_some rem ins2 rem2).1 h2
      have hlen2 : rem.length = rem2.length + 2 := by rw [hshape2]; simp
      simp only
      cases rem2 with
      | nil => simp [hlen, hlen2]
      | cons i rest =>
        refine ⟨Or.inr ?_, ?_⟩ <;> simp_all <;> omega
    | none =>
      simp only
      cases rem with
      | nil => simp [hlen]
      | cons i rest =>
        refine ⟨Or.inr ?_, ?_⟩ <;> simp_all <;> omega
  | none =>
    simp only
    cases h2 : pattern_add_load inp with
    | some v2 =>
      obtain ⟨ins2, rem2⟩ := v2
      obtain ⟨a2, n2, d3, s3, w2, hshape2, -, -, -⟩ :=
        (pattern_add_load_eq_some inp ins2 rem2).1 h2
      have hlen2 : inp.length = rem2.length + 2 := by rw [hshape2]; simp
      simp only
      cases rem2 with
      | nil => simp [hlen2]
      | cons i rest =>
        refine ⟨Or.inr ?_, ?_⟩ <;> simp_all <;> omega
    | none =>
      simp only
      cases inp with
      | nil => exact absurd rfl h
      | cons i rest => simp

theorem getLast_suffix_exit {pre l rem : List Instruction}
    (hshape : l = pre ++ rem) (hrem : rem ≠ [])
    (h : l.getLast? = some .exit) : rem.getLast? = some .exit := by
  rw [hshape, List.getLast?_append_of_ne_nil pre hrem] at h
  exact h

theorem cascade_round_exit (inp : List Instruction)
    (h : inp.getLast? = some .exit) :
    ((cascade_round inp).2 = [] →
      (cascade_round inp).1 ≠ [] ∧ (cascade_round inp).1.getLast? = some .exit) ∧
    ((cascade_round inp).2 ≠ [] →
      (cascade_round inp).2.getLast? = some .exit) := by
  unfold cascade_round
  cases h1 : pattern_mov_add_load inp with
  | some v =>
    obtain ⟨ins, rem⟩ := v
    obtain ⟨a, b, d, n, d2, s2, w, hshape, -, -, -⟩ :=
      (pattern_mov_add_load_eq_some inp ins rem).1 h1
    -- the consumed window ends in a load, so the trailing exit is in rem
    have hrem : rem ≠ [] := by
      intro hn
      subst hn
      rw [hshape] at h
      simp at h
    have hrexit : rem.getLast? = some .exit :=
      @getLast_suffix_exit [.movx64 a b, .add64 d n, .loadx d2 s2 0 w] _ _
        (by simpa using hshape) hrem h
    simp only
    cases h2 : pattern_add_load rem with
    | some v2 =>
      obtain ⟨ins2, rem2⟩ := v2
      obtain ⟨a2, n2, d3, s3, w2, hshape2, -, -, -⟩ :=
        (pattern_add_load_eq_some rem ins2 rem2).1 h2
      have hrem2 : rem2 ≠ [] := by
        intro hn
        subst hn
        rw [hshape2] at hrexit
        simp at hrexit
      have hrexit2 : rem2.getLast? = some .exit :=
        @getLast_suffix_exit [.add64 a2 n2, .loadx d3 s3 0 w2] _ _
          (by simpa using hshape2) hrem2 hrexit
      simp only
      cases rem2 with
      | nil => exact absurd rfl hrem2
      | cons i rest =>
        cases rest with
        | nil =>
          refine ⟨fun _ => ⟨by simp, ?_⟩, fun hx => absurd rfl hx⟩
          simp at hrexit2
          simp [hrexit2]
        | cons j rest2 =>
          refine ⟨fun hx => absurd hx (by simp), fun _ => ?_⟩
          exact @getLast_suffix_exit [i] _ _ (by simp) (by simp) hrexit2
    | none =>
      simp only
      cases rem with
      | nil => exact absurd rfl hrem
      | cons i rest =>
        cases rest with
        | nil =>
          refine ⟨fun _ => ⟨by simp, ?_⟩, fun hx => absurd rfl hx⟩
          simp at hrexit
          simp [hrexit]
        | cons j rest2 =>
          refine ⟨fun hx => absurd hx (by simp), fun _ => ?_⟩
          exact @getLast_suffix_exit [i] _ _ (by simp) (by simp) hrexit
  | none =>
    simp only
    cases h2 : pattern_add_load inp with
    | some v2 =>
      obtain ⟨ins2, rem2⟩ := v2
      obtain ⟨a2, n2, d3, s3, w2, hshape2, -, -, -⟩ :=
        (pattern_add_load_eq_some inp ins2 rem2).1 h2
      have hrem2 : rem2 ≠ [] := by
        intro hn
        subst hn
        rw [hshape2] at h
        simp at h
      have hrexit2 : rem2.getLast? = some .exit :=
        @getLast_suffix_exit [.add64 a2 n2, .loadx d3 s3 0 w2] _ _
          (by simpa using hshape2) hrem2 h
      simp only
      cases rem2 with
      | nil => exact absurd rfl hrem2
      | cons i rest =>
        cases rest with
        | nil =>
          refine ⟨fun _ => ⟨by simp, ?_⟩, fun hx => absurd rfl hx⟩
          simp at hrexit2
          simp [hrexit2]
        | cons j rest2 =>
          refine ⟨fun hx => absurd hx (by simp), fun _ => ?_⟩
          exact @getLast_suffix_exit [i] _ _ (by simp) (by simp) hrexit2
    | none =>
      simp only
      cases inp with
      | nil => simp at h
      | cons i rest =>
        cases rest with
        | nil =>
          refine ⟨fun _ => ⟨by simp, ?_⟩, fun hx => absurd rfl hx⟩
          simp at h
          simp [h]
        | cons j rest2 =>
          refine ⟨fun hx => absurd hx (by simp), fun _ => ?_⟩
          exact @getLast_suffix_exit [i] _ _ (by simp) (by simp) h

theorem optimize_round_rest_lt (inp : List Instruction) (h : inp ≠ []) :
    (optimize_round inp).2.length < inp.length := by
  rw [optimize_round_eq_cascade_round]
  exact (cascade_round_spec inp h).2

theorem optimizeGo_fuel (f1 : Nat) :
    ∀ (f2 : Nat) (l : List Instruction), l.length ≤ f1 → l.length ≤ f2 →
      optimizeGo f1 l = optimizeGo f2 l := by
  induction f1 with
  | zero =>
    intro f2 l h1 _
    have : l = [] := List.length_eq_zero.1 (Nat.le_zero.1 h1)
    subst this
    cases f2 <;> rfl
  | succ n ih =>
    intro f2 l h1 h2
    cases l with
    | nil => cases f2 <;> rfl
    | cons i rest =>
      cases f2 with
      | zero => simp at h2
      | succ m =>
        show (optimize_round (i :: rest)).1 ++ optimizeGo n (optimize_round (i :: rest)).2 =
          (optimize_round (i :: rest)).1 ++ optimizeGo m (optimize_round (i :: rest)).2
        have hlt := optimize_round_rest_lt (i :: rest) (by simp)
        rw [ih m (optimize_round (i :: rest)).2 (by simp at h1 hlt ⊢; omega)
          (by simp at h2 hlt ⊢; omega)]

theorem optimize_cons (i : Instruction) (rest : List Instruction) :
    optimize (i :: rest) =
      (optimize_round (i :: rest)).1 ++ optimize (optimize_round (i :: rest)).2 := by
  show optimizeGo (rest.length + 1) (i :: rest) = _
  have hlt := optimize_round_rest_lt (i :: rest) (by simp)
  show (optimize_round (i :: rest)).1 ++ optimizeGo rest.length (optimize_round (i :: rest)).2 = _
  rw [optimizeGo_fuel rest.length (optimize_round (i :: rest)).2.length
    (optimize_round (i :: rest)).2 (by simp at hlt ⊢; omega) le_rfl]
  rfl

theorem cascade_go_fuel (f1 : Nat) :
    ∀ (f2 : Nat) (l : List Instruction), l.length ≤ f1 → l.length ≤ f2 →
      cascade_go f1 l = cascade_go f2 l := by
  induction f1 with
  | zero =>
    intro f2 l h1 _
    have : l = [] := List.length_eq_zero.1 (Nat.le_zero.1 h1)
    subst this
    cases f2 <;> rfl
  | succ n ih =>
    intro f2 l h1 h2
    cases l with
    | nil => cases f2 <;> rfl
    | cons i rest =>
      cases f2 with
      | zero => simp at h2
      | succ m =>
        show (cascade_round (i :: rest)).1 ++ cascade_go n (cascade_round (i :: rest)).2 =
          (cascade_round (i :: rest)).1 ++ cascade_go m (cascade_round (i :: rest)).2
        have hlt := (cascade_round_spec (i :: rest) (by simp)).2
        rw [ih m (cascade_round (i :: rest)).2 (by simp at h1 hlt ⊢; omega)
          (by simp at h2 hlt ⊢; omega)]

theorem cascade_cons (i : Instruction) (rest : List Instruction) :
    cascade (i :: rest) =
      (cascade_round (i :: rest)).1 ++ cascade (cascade_round (i :: rest)).2 := by
  show cascade_go (rest.length + 1) (i :: rest) = _
  have hlt := (cascade_round_spec (i :: rest) (by simp)).2
  show (cascade_round (i :: rest)).1 ++ cascade_go rest.length (cascade_round (i :: rest)).2 = _
  rw [cascade_go_fuel rest.length (cascade_round (i :: rest)).2.length
    (cascade_round (i :: rest)).2 (by simp at hlt ⊢; omega) le_rfl]
  rfl

theorem optimize_eq_cascade (l : List Instruction) : optimize l = cascade l := by
  have main : ∀ (n : Nat) (l : List Instruction), l.length ≤ n →
      optimize l = cascade l := by
    intro n
    induction n with
    | zero =>
      intro l h
      have : l = [] := List.length_eq_zero.1 (Nat.le_zero.1 h)
      subst this
      rfl
    | succ m ih =>
      intro l h
      cases l with
      | nil => rfl
      | cons i rest =>
        rw [optimize_cons, cascade_cons, optimize_round_eq_cascade_round]
        have hlt := (cascade_round_spec (i :: rest) (by simp)).2
        rw [ih (cascade_round (i :: rest)).2 (by simp at h hlt ⊢; omega)]
  exact main l.length l le_rfl


theorem optimize_nil_eq : optimize [] = [] := rfl

theorem optimize_length_le (l : List Instruction) :
    (optimize l).length ≤ l.length := by
  have main : ∀ (n : Nat) (l : List Instruction), l.length ≤ n →
      (optimize l).length ≤ l.length := by
    intro n
    induction n with
    | zero =>
      intro l h
      have : l = [] := List.length_eq_zero.1 (Nat.le_zero.1 h)
      subst this
      simp [optimize_nil_eq]
    | succ m ih =>
      intro l h
      cases l with
      | nil => simp [optimize_nil_eq]
      | cons i rest =>
        rw [optimize_cons, optimize_round_eq_cascade_round]
        obtain ⟨hcase, hlt⟩ := cascade_round_spec (i :: rest) (by simp)
        have hrec := ih (cascade_round (i :: rest)).2 (by simp at h hlt ⊢; omega)
        have hsum : (cascade_round (i :: rest)).1.length +
            (cascade_round (i :: rest)).2.length ≤ (i :: rest).length := by
          rcases hcase with hid | hstrict
          · have hl2 := congrArg List.length hid
            rw [List.length_append] at hl2
            omega
          · omega
        simp only [List.length_append]
        omega
  exact main l.length l le_rfl

theorem optimize_fixed_or_shorter (l : List Instruction) :
    optimize l = l ∨ (optimize l).length < l.length := by
  have main : ∀ (n : Nat) (l : List Instruction), l.length ≤ n →
      optimize l = l ∨ (optimize l).length < l.length := by
    intro n
    induction n with
    | zero =>
      intro l h
      have : l = [] := List.length_eq_zero.1 (Nat.le_zero.1 h)
      subst this
      exact Or.inl optimize_nil_eq
    | succ m ih =>
      intro l h
      cases l with
      | nil => exact Or.inl optimize_nil_eq
      | cons i rest =>
        rw [optimize_cons, optimize_round_eq_cascade_round]
        obtain ⟨hcase, hlt⟩ := cascade_round_spec (i :: rest) (by simp)
        rcases hcase with hid | hstrict
        · rcases ih (cascade_round (i :: rest)).2 (by simp at h hlt ⊢; omega) with
            hfix | hshort
          · rw [hfix, hid]
            exact Or.inl rfl
          · refine Or.inr ?_
            have := congrArg List.length hid
            simp only [List.length_append] at this ⊢
            omega
        · refine Or.inr ?_
          have hrec := optimize_length_le (cascade_round (i :: rest)).2
          simp only [List.length_append]
          omega
  exact main l.length l le_rfl

theorem optimize_getLast_exit (l : List Instruction)
    (h : l.getLast? = some .exit) :
    optimize l ≠ [] ∧ (optimize l).getLast? = some .exit := by
  have main : ∀ (n : Nat) (l : List Instruction), l.length ≤ n →
      l.getLast? = some .exit →
      optimize l ≠ [] ∧ (optimize l).getLast? = some .exit := by
    intro n
    induction n with
    | zero =>
      intro l hn hl
      have : l = [] := List.length_eq_zero.1 (Nat.le_zero.1 hn)
      subst this
      simp at hl
    | succ m ih =>
      intro l hn hl
      cases l with
      | nil => simp at hl
      | cons i rest =>
        rw [optimize_cons, optimize_round_eq_cascade_round]
        obtain ⟨hnil, hne⟩ := cascade_round_exit (i :: rest) hl
        obtain ⟨-, hlt⟩ := cascade_round_spec (i :: rest) (by simp)
        by_cases hrem : (cascade_round (i :: rest)).2 = []
        · obtain ⟨hone, hex⟩ := hnil hrem
          rw [hrem, optimize_nil_eq, List.append_nil]
          exact ⟨hone, hex⟩
        · obtain ⟨hone, hex⟩ := ih (cascade_round (i :: rest)).2
            (by simp at hn hlt ⊢; omega) (hne hrem)
          refine ⟨by simp [hone], ?_⟩
          rw [List.getLast?_append_of_ne_nil _ hone]
          exact hex
  exact main l.length l le_rfl h

/- ### Compiler lemmas: stack monotonicity -/

theorem bind_ok_elim {ε α β : Type} {e : Except ε α} {f : α → Except ε β} {b : β}
    (h : (e >>= f) = .ok b) : ∃ a, e = .ok a ∧ f a = .ok b := by
  cases e with
  | error err => simp [Bind.bind, Except.bind] at h
  | ok a => exact ⟨a, rfl, by simpa [Bind.bind, Except.bind] using h⟩

theorem push_instr_stack (c : Compiler) (i : Instruction) :
    (c.push_instr i).stack = c.stack := rfl

theorem push_stack_stack {c : Compiler} {n : Nat} {off : Int} {c' : Compiler}
    (h : c.push_stack n = .ok (off, c')) : c.stack ≤ c'.stack := by
  unfold Compiler.push_stack at h
  split_ifs at h
  rw [Except.ok.injEq, Prod.mk.injEq] at h
  obtain ⟨-, rfl⟩ := h
  simp

theorem use_offset_stack {c : Compiler} {use_offset : Option Int} {n : Nat}
    {off : Int} {c' : Compiler}
    (h : (match use_offset with
          | some o => Except.ok (o, c)
          | none => c.push_stack n) = .ok (off, c')) : c.stack ≤ c'.stack := by
  match use_offset with
  | some o =>
    rw [Except.ok.injEq, Prod.mk.injEq] at h
    obtain ⟨-, rfl⟩ := h
    exact le_rfl
  | none => exact push_stack_stack h




theorem except_ok_inj {ε α : Type} {a b : α}
    (h : (Except.ok a : Except ε α) = .ok b) : a = b := by
  cases h
  rfl

theorem except_ok_pair_inj {ε : Type} {α β : Type} {a1 b1 : α} {a2 b2 : β}
    (h : (Except.ok (a1, a2) : Except ε (α × β)) = .ok (b1, b2)) :
    a1 = b1 ∧ a2 = b2 := by
  cases h
  exact ⟨rfl, rfl⟩


theorem emit_push_immediate_stack {c : Compiler} {s : String} {t : Ty}
    {uo : Option Int} {off : Int} {t' : Ty} {c' : Compiler}
    (h : c.emit_push_immediate s t uo = .ok ((off, t'), c')) :
    c.stack ≤ c'.stack := by
  unfold Compiler.emit_push_immediate at h
  try dsimp only at h
  split at h
  · exact absurd h (by simp)
  · have tail : ∀ (c1 : Compiler), c.stack ≤ c1.stack → ∀ (o : Int),
        ((if t.is_pointer = true then do
            let imm ← c1.parse_immediate (parse_in_range s 255)
            Except.ok ((o, t), c1.push_instr (.store8 .r10 o (as_i8 imm)))
          else if t.base_type.is_void = true then do
            let imm ← c1.parse_immediate (parse_in_range s 9223372036854775807)
            Except.ok ((o, (⟨.integer ⟨64, 64, false⟩, 0⟩ : Ty)),
              c1.push_instr (.store64 .r10 o (imm : Int)))
          else
            match t.base_type with
            | .integer integer => do
              let c2 ← match t.get_size, integer.is_signed with
                | 1, false => do
                  let imm ← c1.parse_immediate (parse_in_range s 255)
                  Except.ok (c1.push_instr (.store8 .r10 o (as_i8 imm)))
                | 1, true => do
                  let imm ← c1.parse_immediate (parse_in_range s 127)
                  Except.ok (c1.push_instr (.store8 .r10 o (imm : Int)))
                | 2, false => do
                  let imm ← c1.parse_immediate (parse_in_range s 65535)
                  Except.ok (c1.push_instr (.store16 .r10 o (as_i16 imm)))
                | 2, true => do
                  let imm ← c1.parse_immediate (parse_in_range s 32767)
                  Except.ok (c1.push_instr (.store16 .r10 o (imm : Int)))
                | 4, false => do
                  let imm ← c1.parse_immediate (parse_in_range s 4294967295)
                  Except.ok (c1.push_instr (.store32 .r10 o (as_i32 imm)))
                | 4, true => do
                  let imm ← c1.parse_immediate (parse_in_range s 2147483647)
                  Except.ok (c1.push_instr (.store32 .r10 o (imm : Int)))
                | 8, false => do
                  let imm ← c1.parse_immediate (parse_in_range s 18446744073709551615)
                  Except.ok (c1.push_instr (.store64 .r10 o (as_i64 imm)))
                | 8, true => do
                  let imm ← c1.parse_immediate (parse_in_range s 9223372036854775807)
                  Except.ok (c1.push_instr (.store64 .r10 o (imm : Int)))
                | _, _ => Except.error (.semantics c1.expr_num msg_bits_unsupported)
              Except.ok ((o, t), c2)
            | _ => do
              let imm ← c1.parse_immediate (parse_in_range s 127)
              Except.ok ((o, t), c1.emit_init_stack_range o (imm : Int) t.get_size))
          = .ok ((off, t'), c')) → c.stack ≤ c'.stack := by
      intro c1 hc1 o h
      split at h
      · obtain ⟨imm, -, h⟩ := bind_ok_elim h
        obtain ⟨-, hc'⟩ := except_ok_pair_inj h
        subst hc'
        simpa [Compiler.push_instr] using hc1
      · split at h
        · obtain ⟨imm, -, h⟩ := bind_ok_elim h
          obtain ⟨-, hc'⟩ := except_ok_pair_inj h
          subst hc'
          simpa [Compiler.push_instr] using hc1
        · split at h
          · try dsimp only at h
            split at h <;>
              first
              | exact absurd h (by simp)
              | (obtain ⟨y, hy, h⟩ := bind_ok_elim h
                 exact absurd hy (by simp))
              | (obtain ⟨imm, -, h⟩ := bind_ok_elim h
                 obtain ⟨y, hy, h⟩ := bind_ok_elim h
                 cases except_ok_inj hy
                 obtain ⟨-, hc'⟩ := except_ok_pair_inj h
                 subst hc'
                 simpa [Compiler.push_instr] using hc1)
          · obtain ⟨imm, -, h⟩ := bind_ok_elim h
            obtain ⟨-, hc'⟩ := except_ok_pair_inj h
            subst hc'
            simpa [Compiler.emit_init_stack_range] using hc1
    cases uo with
    | some o2 =>
      obtain ⟨⟨o, c1⟩, hoff, h⟩ := bind_ok_elim h
      obtain ⟨-, hc⟩ := except_ok_pair_inj hoff
      exact tail c1 (by rw [← hc]) o h
    | none =>
      obtain ⟨⟨o, c1⟩, hoff, h⟩ := bind_ok_elim h
      exact tail c1 (push_stack_stack hoff) o h

theorem emit_push_register_stack {c : Compiler} {reg : Register}
    {uo : Option Int} {off : Int} {c' : Compiler}
    (h : c.emit_push_register reg uo = .ok (off, c')) : c.stack ≤ c'.stack := by
  unfold Compiler.emit_push_register at h
  try dsimp only at h
  cases uo with
  | some o2 =>
    obtain ⟨⟨o, c1⟩, hoff, h⟩ := bind_ok_elim h
    obtain ⟨-, hc⟩ := except_ok_pair_inj hoff
    try dsimp only at h
    obtain ⟨-, hc'⟩ := except_ok_pair_inj h
    subst hc'
    simpa [Compiler.push_instr] using le_of_eq (congrArg Compiler.stack hc)
  | none =>
    obtain ⟨⟨o, c1⟩, hoff, h⟩ := bind_ok_elim h
    try dsimp only at h
    obtain ⟨-, hc'⟩ := except_ok_pair_inj h
    subst hc'
    simpa [Compiler.push_instr] using push_stack_stack hoff

theorem emit_deref_register_to_stack_stack (c : Compiler) (reg : Register)
    (t : Ty) (off : Int) :
    (c.emit_deref_register_to_stack reg t off).stack = c.stack := rfl

theorem emit_field_access_stack {c : Compiler} {reg : Register} {t : Ty}
    {name : String} {t' : Ty} {c' : Compiler}
    (h : c.emit_field_access reg t name = .ok (t', c')) : c.stack ≤ c'.stack := by
  unfold Compiler.emit_field_access at h
  obtain ⟨⟨o, ft⟩, -, h⟩ := bind_ok_elim h
  try dsimp only at h
  split at h <;>
    · obtain ⟨-, hc'⟩ := except_ok_pair_inj h
      subst hc'
      simp [Compiler.push_instr]

theorem emit_index_array_stack {c : Compiler} {reg : Register} {t : Ty}
    {element : String} {t' : Ty} {c' : Compiler}
    (h : c.emit_index_array reg t element = .ok (t', c')) : c.stack ≤ c'.stack := by
  unfold Compiler.emit_index_array at h
  obtain ⟨⟨o, et⟩, -, h⟩ := bind_ok_elim h
  try dsimp only at h
  split at h <;>
    · obtain ⟨-, hc'⟩ := except_ok_pair_inj h
      subst hc'
      simp [Compiler.push_instr]

theorem emit_apply_derefs_to_reg_stack {derefs : List DeReference} :
    ∀ {c : Compiler} {reg : Register} {t : Ty} {t' : Ty} {c' : Compiler},
    c.emit_apply_derefs_to_reg reg t derefs = .ok (t', c') → c.stack ≤ c'.stack := by
  induction derefs with
  | nil =>
    intro c reg t t' c' h
    unfold Compiler.emit_apply_derefs_to_reg at h
    obtain ⟨-, hc'⟩ := except_ok_pair_inj h
    subst hc'
    exact le_rfl
  | cons d rest ih =>
    intro c reg t t' c' h
    unfold Compiler.emit_apply_derefs_to_reg at h
    try dsimp only at h
    have hbase : ((if t.is_pointer = true
        then c.push_instr (Instruction.loadx64 reg reg 0) else c)).stack = c.stack := by
      split <;> rfl
    cases d with
    | field_access name =>
      obtain ⟨⟨nt, c2⟩, hstep, h⟩ := bind_ok_elim h
      exact le_trans (le_trans (le_of_eq hbase.symm) (emit_field_access_stack hstep)) (ih h)
    | array_index element =>
      obtain ⟨⟨nt, c2⟩, hstep, h⟩ := bind_ok_elim h
      exact le_trans (le_trans (le_of_eq hbase.symm) (emit_index_array_stack hstep)) (ih h)

theorem emit_set_register_to_lvalue_addr_stack {c : Compiler} {reg : Register}
    {lval : LValue} {t' : Ty} {c' : Compiler}
    (h : c.emit_set_register_to_lvalue_addr reg lval = .ok (t', c')) :
    c.stack ≤ c'.stack := by
  unfold Compiler.emit_set_register_to_lvalue_addr at h
  obtain ⟨info, -, h⟩ := bind_ok_elim h
  try dsimp only at h
  split at h
  · exact absurd h (by simp)
  · have := emit_apply_derefs_to_reg_stack h
    simpa [Compiler.push_instr] using this

theorem emit_set_register_from_lvalue_stack {c : Compiler} {reg : Register}
    {lval : LValue} {lt : Option MemoryOpLoadType} {c' : Compiler}
    (h : c.emit_set_register_from_lvalue reg lval lt = .ok c') :
    c.stack ≤ c'.stack := by
  unfold Compiler.emit_set_register_from_lvalue at h
  obtain ⟨info, -, h⟩ := bind_ok_elim h
  try dsimp only at h
  split at h
  · split at h
    · exact absurd h (by simp)
    · cases except_ok_inj h
      simp [Compiler.push_instr]
  · obtain ⟨⟨vt, c1⟩, haddr, h⟩ := bind_ok_elim h
    have h1 : c.stack ≤ c1.stack := emit_set_register_to_lvalue_addr_stack haddr
    try dsimp only at h
    split at h
    · cases except_ok_inj h
      exact h1
    · split at h <;>
        first
        | (obtain ⟨y, hy, h⟩ := bind_ok_elim h
           cases except_ok_inj hy
           split at h
           · split at h
             · exact absurd h (by simp)
             · cases except_ok_inj h
               simpa [Compiler.push_instr] using h1
           · cases except_ok_inj h
             simpa [Compiler.push_instr] using h1)
        | simp [Bind.bind, Except.bind] at h



theorem emit_push_lvalue_stack {c : Compiler} {lval : LValue} {t : Ty}
    {uo : Option Int} {off : Int} {t' : Ty} {c' : Compiler}
    (h : c.emit_push_lvalue lval t uo = .ok ((off, t'), c')) :
    c.stack ≤ c'.stack := by
  unfold Compiler.emit_push_lvalue at h
  obtain ⟨⟨vt, c1⟩, haddr, h⟩ := bind_ok_elim h
  have h1 : c.stack ≤ c1.stack := emit_set_register_to_lvalue_addr_stack haddr
  try dsimp only at h
  split at h
  all_goals
    split at h
    · exact absurd h (by simp)
    · cases uo with
      | some o2 =>
        obtain ⟨⟨o, c2⟩, hoff, h⟩ := bind_ok_elim h
        obtain ⟨-, hcc⟩ := except_ok_pair_inj hoff
        have h2 : c.stack ≤ c2.stack :=
          le_trans h1 (le_of_eq (congrArg Compiler.stack hcc))
        try dsimp only at h
        split at h
        · obtain ⟨-, hc'⟩ := except_ok_pair_inj h
          subst hc'
          simpa [Compiler.emit_deref_register_to_stack, Compiler.push_instr] using h2
        · exact absurd h (by simp)
        · obtain ⟨-, hc'⟩ := except_ok_pair_inj h
          subst hc'
          simpa [Compiler.push_instr] using h2
      | none =>
        obtain ⟨⟨o, c2⟩, hoff, h⟩ := bind_ok_elim h
        have h2 : c.stack ≤ c2.stack := le_trans h1 (push_stack_stack hoff)
        try dsimp only at h
        split at h
        · obtain ⟨-, hc'⟩ := except_ok_pair_inj h
          subst hc'
          simpa [Compiler.emit_deref_register_to_stack, Compiler.push_instr] using h2
        · exact absurd h (by simp)
        · obtain ⟨-, hc'⟩ := except_ok_pair_inj h
          subst hc'
          simpa [Compiler.push_instr] using h2

mutual

theorem emit_push_rvalue_stack (c : Compiler) (rval : RValue) :
    ∀ {t : Ty} {uo : Option Int} {off : Int} {t' : Ty} {c' : Compiler},
    Compiler.emit_push_rvalue c rval t uo = .ok ((off, t'), c') →
    c.stack ≤ c'.stack := by
  intro t uo off t' c' h
  cases rval with
  | immediate s =>
    unfold Compiler.emit_push_rvalue at h
    exact emit_push_immediate_stack h
  | lvalue lval =>
    unfold Compiler.emit_push_rvalue at h
    exact emit_push_lvalue_stack h
  | function_call fc =>
    unfold Compiler.emit_push_rvalue at h
    try dsimp only at h
    split at h
    case h_2 => exact absurd h (by simp)
    case h_1 integer =>
      split at h
      · exact absurd h (by simp)
      · obtain ⟨c1, hcall, h⟩ := bind_ok_elim h
        obtain ⟨⟨o, c2⟩, hpush, h⟩ := bind_ok_elim h
        obtain ⟨-, hc'⟩ := except_ok_pair_inj h
        subst hc'
        exact le_trans (emit_call_stack c fc hcall) (emit_push_register_stack hpush)

theorem emit_assign_stack (c : Compiler) (a : Assignment) :
    ∀ {c' : Compiler},
    Compiler.emit_assign c a = .ok c' → c.stack ≤ c'.stack := by
  intro c' h
  cases a with
  | mk left type_name right =>
    unfold Compiler.emit_assign at h
    try dsimp only at h
    split at h
    · split at h
      · obtain ⟨y, hy, h⟩ := bind_ok_elim h
        exact absurd hy (by simp)
      · obtain ⟨y, -, h⟩ := bind_ok_elim h
        obtain ⟨⟨⟨o, nt⟩, c1⟩, hpush, h⟩ := bind_ok_elim h
        have h1 : c.stack ≤ c1.stack := emit_push_rvalue_stack c right hpush
        split at h
        · cases except_ok_inj h
          simpa using h1
        · cases except_ok_inj h
          exact h1
    · split at h
      · obtain ⟨t0, -, h⟩ := bind_ok_elim h
        obtain ⟨y, -, h⟩ := bind_ok_elim h
        obtain ⟨⟨⟨o, nt⟩, c1⟩, hpush, h⟩ := bind_ok_elim h
        have h1 : c.stack ≤ c1.stack := emit_push_rvalue_stack c right hpush
        split at h
        · cases except_ok_inj h
          simpa using h1
        · cases except_ok_inj h
          exact h1
      · obtain ⟨y, -, h⟩ := bind_ok_elim h
        obtain ⟨⟨⟨o, nt⟩, c1⟩, hpush, h⟩ := bind_ok_elim h
        have h1 : c.stack ≤ c1.stack := emit_push_rvalue_stack c right hpush
        split at h
        · cases except_ok_inj h
          simpa using h1
        · cases except_ok_inj h
          exact h1

theorem emit_set_register_from_rvalue_stack (c : Compiler) (rval : RValue) :
    ∀ {reg : Register} {lt : Option MemoryOpLoadType} {c' : Compiler},
    Compiler.emit_set_register_from_rvalue c reg rval lt = .ok c' →
    c.stack ≤ c'.stack := by
  intro reg lt c' h
  cases rval with
  | immediate s =>
    unfold Compiler.emit_set_register_from_rvalue at h
    split at h
    · obtain ⟨imm, -, h⟩ := bind_ok_elim h
      cases except_ok_inj h
      simp [Compiler.push_instr]
    · obtain ⟨imm, -, h⟩ := bind_ok_elim h
      cases except_ok_inj h
      simp [Compiler.push_instr]
  | lvalue lval =>
    unfold Compiler.emit_set_register_from_rvalue at h
    exact emit_set_register_from_lvalue_stack h
  | function_call fc =>
    unfold Compiler.emit_set_register_from_rvalue at h
    try dsimp only at h
    obtain ⟨c1, hcall, h⟩ := bind_ok_elim h
    have h1 : c.stack ≤ c1.stack := emit_call_stack c fc hcall
    split at h
    · cases except_ok_inj h
      exact h1
    · cases except_ok_inj h
      simpa [Compiler.push_instr] using h1

theorem emit_call_stack (c : Compiler) (fc : FunctionCall) :
    ∀ {c' : Compiler},
    Compiler.emit_call c fc = .ok c' → c.stack ≤ c'.stack := by
  intro c' h
  cases fc with
  | mk name args =>
    unfold Compiler.emit_call at h
    try dsimp only at h
    split at h
    · exact absurd h (by simp)
    · obtain ⟨c1, hargs, h⟩ := bind_ok_elim h
      cases except_ok_inj h
      simpa [Compiler.push_instr] using emit_call_args_stack c args 0 hargs

theorem emit_call_args_stack (c : Compiler) (args : RValueList) :
    ∀ (i : Nat) {ats : List MemoryOpLoadType} {c' : Compiler},
    Compiler.emit_call_args c args i ats = .ok c' → c.stack ≤ c'.stack := by
  intro i ats c' h
  cases args with
  | nil =>
    unfold Compiler.emit_call_args at h
    cases except_ok_inj h
    exact le_rfl
  | cons arg rest =>
    unfold Compiler.emit_call_args at h
    try dsimp only at h
    split at h <;>
      first
      | (obtain ⟨c1, harg, h⟩ := bind_ok_elim h
         exact le_trans (emit_set_register_from_rvalue_stack c arg harg)
           (emit_call_args_stack c1 rest _ h))
      | (obtain ⟨c1, harg, h⟩ := bind_ok_elim h
         simp at harg)

theorem emit_if_statement_stack (c : Compiler) (ifs : IfStatement) :
    ∀ {c' : Compiler},
    Compiler.emit_if_statement c ifs = .ok c' → c.stack ≤ c'.stack := by
  intro c' h
  cases ifs with
  | mk cond exprs else_exprs =>
    cases cond with
    | mk left op right =>
      unfold Compiler.emit_if_statement at h
      try dsimp only at h
      obtain ⟨c1, hl, h⟩ := bind_ok_elim h
      obtain ⟨c2, hr, h⟩ := bind_ok_elim h
      have h1 : c.stack ≤ c2.stack :=
        le_trans (emit_set_register_from_rvalue_stack c left hl)
          (emit_set_register_from_rvalue_stack c1 right hr)
      try dsimp only at h
      obtain ⟨c6x, hbody, h⟩ := bind_ok_elim h
      have h2 := emit_body_loop_stack _ exprs hbody
      try dsimp only at h
      split at h
      case isTrue hcond =>
        split at h
        · exact absurd h (by simp)
        · obtain ⟨c9x, hbody2, h⟩ := bind_ok_elim h
          have h3 := emit_body_loop_stack _ else_exprs hbody2
          split at h
          · exact absurd h (by simp)
          · cases except_ok_inj h
            exact le_trans h1 (le_trans h2 h3)
      case isFalse hcond =>
        split at h
        · exact absurd h (by simp)
        · cases except_ok_inj h
          exact le_trans h1 h2

theorem emit_return_stack (c : Compiler) (ret : Return) :
    ∀ {c' : Compiler},
    Compiler.emit_return c ret = .ok c' → c.stack ≤ c'.stack := by
  intro c' h
  cases ret with
  | mk v =>
    cases v with
    | none =>
      unfold Compiler.emit_return at h
      cases except_ok_inj h
      simp [Compiler.push_instr]
    | some value =>
      unfold Compiler.emit_return at h
      try dsimp only at h
      obtain ⟨c1, hv, h⟩ := bind_ok_elim h
      cases except_ok_inj h
      simpa [Compiler.push_instr] using emit_set_register_from_rvalue_stack c value hv

theorem emit_body_loop_stack (c : Compiler) (exprs : ExpressionList) :
    ∀ {c' : Compiler},
    Compiler.emit_body_loop c exprs = .ok c' → c.stack ≤ c'.stack := by
  intro c' h
  cases exprs with
  | nil =>
    unfold Compiler.emit_body_loop at h
    cases except_ok_inj h
    exact le_rfl
  | cons e rest =>
    unfold Compiler.emit_body_loop at h
    try dsimp only at h
    cases e with
    | assignment a =>
      obtain ⟨c2, hstep, h⟩ := bind_ok_elim h
      exact le_trans
        (emit_assign_stack ⟨c.types, c.vars, c.instructions, c.stack, c.expr_num + 1⟩ a hstep)
        (emit_body_loop_stack c2 rest h)
    | function_call fc =>
      obtain ⟨c2, hstep, h⟩ := bind_ok_elim h
      exact le_trans
        (emit_call_stack ⟨c.types, c.vars, c.instructions, c.stack, c.expr_num + 1⟩ fc hstep)
        (emit_body_loop_stack c2 rest h)
    | if_statement ifs =>
      obtain ⟨c2, hstep, h⟩ := bind_ok_elim h
      exact le_trans
        (emit_if_statement_stack ⟨c.types, c.vars, c.instructions, c.stack, c.expr_num + 1⟩ ifs hstep)
        (emit_body_loop_stack c2 rest h)
    | ret r =>
      obtain ⟨c2, hstep, h⟩ := bind_ok_elim h
      exact le_trans
        (emit_return_stack ⟨c.types, c.vars, c.instructions, c.stack, c.expr_num + 1⟩ r hstep)
        (emit_body_loop_stack c2 rest h)

end

theorem emit_body_stack {c : Compiler} {exprs : ExpressionList} {c' : Compiler}
    (h : Compiler.emit_body c exprs = .ok c') : c.stack ≤ c'.stack := by
  unfold Compiler.emit_body at h
  obtain ⟨c1, hloop, h⟩ := bind_ok_elim h
  cases except_ok_inj h
  simpa using emit_body_loop_stack c exprs hloop

theorem emit_prologue_loop_stack {args : List TypedArgument} :
    ∀ {c : Compiler} {i : Nat} {c' : Compiler},
    Compiler.emit_prologue_loop c args i = .ok c' → c.stack ≤ c'.stack := by
  induction args with
  | nil =>
    intro c i c' h
    unfold Compiler.emit_prologue_loop at h
    cases except_ok_inj h
    exact le_rfl
  | cons arg rest ih =>
    intro c i c' h
    unfold Compiler.emit_prologue_loop at h
    try dsimp only at h
    obtain ⟨t0, -, h⟩ := bind_ok_elim h
    obtain ⟨⟨o, c1⟩, hpush, h⟩ := bind_ok_elim h
    have h3 := ih h
    exact le_trans (emit_push_register_stack hpush) h3

theorem emit_prologue_stack {c : Compiler} {input : InputLine} {c' : Compiler}
    (h : Compiler.emit_prologue c input = .ok c') : c.stack ≤ c'.stack := by
  unfold Compiler.emit_prologue at h
  split at h
  · exact absurd h (by simp)
  · exact emit_prologue_loop_stack h

theorem compile_stack {c : Compiler} {input : InputLine} {exprs : ExpressionList}
    {c' : Compiler} (h : Compiler.compile c input exprs = .ok c') :
    c.stack ≤ c'.stack := by
  unfold Compiler.compile at h
  obtain ⟨c1, hpro, h⟩ := bind_ok_elim h
  obtain ⟨c2, hbody, h⟩ := bind_ok_elim h
  have h12 : c.stack ≤ c2.stack :=
    le_trans (emit_prologue_stack hpro) (emit_body_stack hbody)
  split at h
  · cases except_ok_inj h
    exact h12
  · exact le_trans h12 (emit_return_stack c2 _ h)

/- ### Compiler lemmas: the compiled stream terminates in exit -/

theorem emit_return_exit {c : Compiler} {r : Return} {c' : Compiler}
    (h : Compiler.emit_return c r = .ok c') :
    c'.instructions ≠ [] ∧ c'.instructions.getLast? = some .exit := by
  cases r with
  | mk v =>
    cases v with
    | none =>
      unfold Compiler.emit_return at h
      cases except_ok_inj h
      constructor
      · simp [Compiler.push_instr]
      · simp only [Compiler.push_instr]
        rw [List.getLast?_append_of_ne_nil _ (by simp)]
        rfl
    | some value =>
      unfold Compiler.emit_return at h
      try dsimp only at h
      obtain ⟨c1, hv, h⟩ := bind_ok_elim h
      cases except_ok_inj h
      constructor
      · simp [Compiler.push_instr]
      · simp only [Compiler.push_instr]
        rw [List.getLast?_append_of_ne_nil _ (by simp)]
        rfl

theorem emit_body_loop_ret_exit :
    ∀ (exprs : ExpressionList) (c c' : Compiler),
    last_is_return exprs = true →
    Compiler.emit_body_loop c exprs = .ok c' →
    c'.instructions ≠ [] ∧ c'.instructions.getLast? = some .exit
  | .nil, c, c', hl, _ => by
    simp [last_is_return, last_expr] at hl
  | .cons e .nil, c, c', hl, h => by
    unfold Compiler.emit_body_loop at h
    try dsimp only at h
    have he : ∃ r, e = Expression.ret r := by
      cases e with
      | ret r => exact ⟨r, rfl⟩
      | assignment a => simp [last_is_return, last_expr] at hl
      | function_call fc => simp [last_is_return, last_expr] at hl
      | if_statement ifs => simp [last_is_return, last_expr] at hl
    obtain ⟨r, rfl⟩ := he
    obtain ⟨c2, hstep, h⟩ := bind_ok_elim h
    have : Compiler.emit_body_loop c2 ExpressionList.nil = .ok c' := h
    unfold Compiler.emit_body_loop at this
    cases except_ok_inj this
    exact emit_return_exit hstep
  | .cons e (.cons f rest), c, c', hl, h => by
    unfold Compiler.emit_body_loop at h
    try dsimp only at h
    have hl2 : last_is_return (.cons f rest) = true := by
      simpa [last_is_return, last_expr] using hl
    cases e with
    | assignment a =>
      obtain ⟨c2, hstep, h⟩ := bind_ok_elim h
      exact emit_body_loop_ret_exit (.cons f rest) c2 c' hl2 h
    | function_call fc =>
      obtain ⟨c2, hstep, h⟩ := bind_ok_elim h
      exact emit_body_loop_ret_exit (.cons f rest) c2 c' hl2 h
    | if_statement ifs =>
      obtain ⟨c2, hstep, h⟩ := bind_ok_elim h
      exact emit_body_loop_ret_exit (.cons f rest) c2 c' hl2 h
    | ret r =>
      obtain ⟨c2, hstep, h⟩ := bind_ok_elim h
      exact emit_body_loop_ret_exit (.cons f rest) c2 c' hl2 h

theorem compile_ret_exit {c : Compiler} {input : InputLine}
    {exprs : ExpressionList} {c' : Compiler}
    (h : Compiler.compile c input exprs = .ok c') :
    c'.instructions ≠ [] ∧ c'.instructions.getLast? = some .exit ∧
      (last_is_return exprs = false →
        ∃ pre, c'.instructions = pre ++ [.mov64 .r0 0, .exit]) := by
  unfold Compiler.compile at h
  obtain ⟨c1, hpro, h⟩ := bind_ok_elim h
  obtain ⟨c2, hbody, h⟩ := bind_ok_elim h
  split at h
  case h_1 r heq =>
    cases except_ok_inj h
    have hret : last_is_return exprs = true := by
      simp [last_is_return, heq]
    unfold Compiler.emit_body at hbody
    obtain ⟨c3, hloop, hb⟩ := bind_ok_elim hbody
    cases except_ok_inj hb
    obtain ⟨hne, hlast⟩ := emit_body_loop_ret_exit exprs c1 c3 hret hloop
    have := optimize_getLast_exit c3.instructions hlast
    refine ⟨this.1, this.2, ?_⟩
    intro hf
    rw [hret] at hf
    exact absurd hf (by simp)
  case h_2 hne =>
    unfold Compiler.emit_return at h
    cases except_ok_inj h
    refine ⟨by simp [Compiler.push_instr], ?_,
      fun _ => ⟨c2.instructions, by simp [Compiler.push_instr]⟩⟩
    simp only [Compiler.push_instr]
    rw [List.getLast?_append_of_ne_nil _ (by simp)]
    rfl

/- ### Supporting lemmas for the claim theorems -/

theorem push_stack_ok {c : Compiler} {n : Nat} {off : Int} {c' : Compiler}
    (h : c.push_stack n = .ok (off, c')) :
    c' = { c with stack := c.stack + n } ∧ off = -((c.stack + n : Nat) : Int) ∧
      c.stack + n ≤ MAX_STACK_SIZE := by
  unfold Compiler.push_stack at h
  split_ifs at h with hbig
  rw [Except.ok.injEq, Prod.mk.injEq] at h
  obtain ⟨h1, h2⟩ := h
  exact ⟨h2.symm, h1.symm, by omega⟩

/-- `emit_push_immediate` on a pointer cast type with a reuse offset:
parse in u8 range, then a single byte store. -/
theorem emit_push_immediate_pointer (c : Compiler) (s : String) (t : Ty)
    (off : Int) (hp : t.is_pointer = true) :
    c.emit_push_immediate s t (some off) =
      (match parse_in_range s 255 with
       | none => .error (.semantics c.expr_num msg_parse_immediate_failed)
       | some v => .ok ((off, t), c.push_instr (.store8 .r10 off (as_i8 v)))) := by
  have hnr : 0 < t.num_refs := by simpa [Ty.is_pointer] using hp
  have hsize : t.get_size = 8 := by simp [Ty.get_size, hnr]
  unfold Compiler.emit_push_immediate
  dsimp only
  rw [if_neg (fun hc => absurd (hsize.symm.trans hc.1) (by decide))]
  dsimp only [Bind.bind, Except.bind]
  rw [if_pos hp]
  cases hparse : parse_in_range s 255 with
  | none => dsimp only [Compiler.parse_immediate, Bind.bind, Except.bind]
  | some v => dsimp only [Compiler.parse_immediate, Bind.bind, Except.bind]

/- ### Claim theorems -/

/-- C1: over a type database that registers `int` as a 4-byte signed
integer, compiling `fn(a: int)` with body `return a` succeeds, and
`get_instructions` returns exactly the stream
`[storex64 R10,-8,R1; loadx32 R0,R10,-8; exit]`. -/
theorem claim_c1_return_param :
    (Compiler.compile (Compiler.create c1_database) c1_input c1_exprs).map
        Compiler.get_instructions =
      .ok [.storex64 .r10 (-8) .r1, .loadx32 .r0 .r10 (-8), .exit] := by
  rfl

/-- C2 counterexample: `optimize` does not agree with the first-match-wins
reference rewriter `spec_optimize` (built from the spec sentence) on a
stream of two back-to-back foldable mov+add+load windows: the actual
optimizer re-scans the already-rewritten output and interleaves rules
across iterations. -/
theorem claim_c2_counterexample :
    optimize c2_input ≠ spec_optimize c2_input := by decide

/-- C2 amended: `optimize` equals the reference rewriter `cascade` in which,
at each position, every round applies rule 1 and then re-applies rule 2 to
that result (the second rule can consume the output of the first inside one
round), rather than stopping at the first matching rule. -/
theorem claim_c2_optimize_eq_cascade (l : List Instruction) :
    optimize l = cascade l :=
  optimize_eq_cascade l

/-- C3 counterexample: the peephole optimizer is not idempotent; on
`c3_input` a second pass folds a window that the first pass created. -/
theorem claim_c3_counterexample :
    optimize (optimize c3_input) ≠ optimize c3_input := by decide

/-- C3 amended: one `optimize` pass either leaves the stream exactly fixed
or strictly shortens it (so iterating `optimize` terminates). -/
theorem claim_c3_fixed_or_shorter (l : List Instruction) :
    optimize l = l ∨ (optimize l).length < l.length :=
  optimize_fixed_or_shorter l

/-- C4 (code bug): the bounds check of `get_array_index` is
`index > num_elements`, so for the one-element array type of the C4
database the index 1 (equal to `num_elements`) is accepted with byte
offset 4 — one element past the end — while the claim and the spec
invariant make `num_elements` the exclusive upper bound; only index 2 is
rejected with the out-of-bounds semantics error. -/
theorem claim_c4_array_bounds :
    Compiler.get_array_index c4_compiler c4_array_type (("1")) =
      .ok (4, ⟨.integer ⟨32, 32, false⟩, 0⟩) ∧
    Compiler.get_array_index c4_compiler c4_array_type (("0")) =
      .ok (0, ⟨.integer ⟨32, 32, false⟩, 0⟩) ∧
    Compiler.get_array_index c4_compiler c4_array_type (("2")) =
      .error (.semantics 1 msg_oob_array) := by
  refine ⟨?_, ?_, ?_⟩ <;> decide

/-- C5: pushing an lvalue with no `&` or `*` prefix always copies the value
through the probe_read helper: relative to the state reached after
computing the source address into R6, the emitted tail is exactly
`movx64 R1,R10; add64 R1,offset; mov64 R2,size; movx64 R3,R6; call 4`,
with no direct-load fast path for any size. -/
theorem claim_c5_probe_read (c : Compiler) (lval : LValue) (cast_type : Ty)
    (uo : Option Int) (off : Int) (rt : Ty) (c' : Compiler)
    (hpfx : lval.pfx = none)
    (h : c.emit_push_lvalue lval cast_type uo = .ok ((off, rt), c')) :
    ∃ (vt : Ty) (cm : Compiler),
      c.emit_set_register_to_lvalue_addr .r6 lval = .ok (vt, cm) ∧
      rt.get_size = vt.get_size ∧
      c'.instructions = cm.instructions ++
        [.movx64 .r1 .r10, .add64 .r1 off, .mov64 .r2 (rt.get_size : Int),
         .movx64 .r3 .r6, .call 4] := by
  unfold Compiler.emit_push_lvalue at h
  obtain ⟨⟨vt, c1⟩, haddr, h⟩ := bind_ok_elim h
  refine ⟨vt, c1, haddr, ?_⟩
  try dsimp only at h
  split at h
  all_goals
    split at h
    · exact absurd h (by simp)
    · rename_i hs
      cases uo with
      | some o2 =>
        obtain ⟨⟨o, c2⟩, hoff, h⟩ := bind_ok_elim h
        obtain ⟨-, hcc⟩ := except_ok_pair_inj hoff
        try dsimp only at h
        split at h
        · obtain ⟨hpair, hc2⟩ := except_ok_pair_inj h
          rw [Prod.mk.injEq] at hpair
          obtain ⟨rfl, rfl⟩ := hpair
          subst hc2
          subst hcc
          refine ⟨not_ne_iff.mp hs, ?_⟩
          simp [Compiler.emit_deref_register_to_stack, Compiler.push_instr]
        · exact absurd h (by simp)
        · rename_i heq
          rw [hpfx] at heq
          simp at heq
      | none =>
        obtain ⟨⟨o, c2⟩, hoff, h⟩ := bind_ok_elim h
        obtain ⟨hc2, -, -⟩ := push_stack_ok hoff
        try dsimp only at h
        split at h
        · obtain ⟨hpair, hcf⟩ := except_ok_pair_inj h
          rw [Prod.mk.injEq] at hpair
          obtain ⟨rfl, rfl⟩ := hpair
          subst hcf
          subst hc2
          refine ⟨not_ne_iff.mp hs, ?_⟩
          simp [Compiler.emit_deref_register_to_stack, Compiler.push_instr]
        · exact absurd h (by simp)
        · rename_i heq
          rw [hpfx] at heq
          simp at heq

/-- C5 witness: the u64 stack variable `x` pushed with a void cast type
yields exactly the probe_read tail after the address computation. -/
theorem claim_c5_probe_read_witness :
    ∃ (vt : Ty) (cm : Compiler),
      c5_compiler.emit_set_register_to_lvalue_addr .r6 c5_lval = .ok (vt, cm) ∧
      (⟨.integer ⟨64, 64, false⟩, 0⟩ : Ty).get_size = vt.get_size ∧
      c5_out.instructions = cm.instructions ++
        [.movx64 .r1 .r10, .add64 .r1 (-16),
         .mov64 .r2 ((⟨.integer ⟨64, 64, false⟩, 0⟩ : Ty).get_size : Int),
         .movx64 .r3 .r6, .call 4] :=
  claim_c5_probe_read c5_compiler c5_lval ty_default none (-16)
    ⟨.integer ⟨64, 64, false⟩, 0⟩ c5_out rfl (by rfl)

/-- C6: `push_stack n` fails with a semantics error carrying the current
line number exactly when the frame size would exceed 4096 bytes; otherwise
it grows the frame by exactly `n` and returns the new top offset `-stack`;
and the frame size is monotonically non-decreasing across a whole
successful `compile`. -/
theorem claim_c6_push_stack (c : Compiler) (n : Nat) :
    (MAX_STACK_SIZE < c.stack + n →
      c.push_stack n = .error (.semantics c.expr_num msg_stack_size_exceeded)) ∧
    (c.stack + n ≤ MAX_STACK_SIZE →
      c.push_stack n =
        .ok (-((c.stack + n : Nat) : Int), { c with stack := c.stack + n })) ∧
    (∀ (input : InputLine) (exprs : ExpressionList) (c2 : Compiler),
      Compiler.compile c input exprs = .ok c2 → c.stack ≤ c2.stack) := by
  refine ⟨fun hlt => ?_, fun hle => ?_, fun input exprs c2 h => compile_stack h⟩
  · unfold Compiler.push_stack
    rw [if_pos hlt]
  · unfold Compiler.push_stack
    rw [if_neg (by omega)]
    rfl

/-- C6 witness: a successful push on a fresh compiler, a failing push at a
nearly-full frame, and the compile-level monotonicity on the empty
program. -/
theorem claim_c6_push_stack_witness :
    (Compiler.create c1_database).push_stack 8 =
      .ok (-8, { Compiler.create c1_database with stack := 8 }) ∧
    ({ Compiler.create c1_database with stack := 4092 } : Compiler).push_stack 8 =
      .error (.semantics 1 msg_stack_size_exceeded) ∧
    (Compiler.create c1_database).stack ≤ c6_empty_out.stack := by
  refine ⟨?_, ?_, ?_⟩
  · exact (claim_c6_push_stack (Compiler.create c1_database) 8).2.1 (by decide)
  · exact (claim_c6_push_stack
      ({ Compiler.create c1_database with stack := 4092 }) 8).1 (by decide)
  · exact (claim_c6_push_stack (Compiler.create c1_database) 8).2.2
      ⟨[]⟩ .nil c6_empty_out (by rfl)

/-- C7 counterexample: compiling `fn(a: int) return a` succeeds with a
three-instruction stream whose final two instructions are a 32-bit load
followed by `exit` — the penultimate instruction is not `mov64 R0,_`, so
the claimed dichotomy on the last two instructions fails. -/
theorem claim_c7_counterexample :
    ∃ c', Compiler.compile (Compiler.create c1_database) c1_input c1_exprs =
        .ok c' ∧
      c'.instructions.length = 3 ∧
      c'.instructions.drop 1 = [.loadx32 .r0 .r10 (-8), .exit] ∧
      (∀ imm : Int, (Instruction.loadx32 .r0 .r10 (-8)) ≠ .mov64 .r0 imm) :=
  ⟨c7_out, rfl, rfl, rfl, fun imm h => Instruction.noConfusion h⟩

/-- C7 amended: every successful compile yields a non-empty stream ending
in `exit`, and when the last top-level expression is not a `Return` the
stream ends with the implicit `mov64 R0,0; exit` pair; when it is a
`Return`, only the final `exit` is guaranteed. -/
theorem claim_c7_stream_ends_exit (c : Compiler) (input : InputLine)
    (exprs : ExpressionList) (c' : Compiler)
    (h : Compiler.compile c input exprs = .ok c') :
    c'.instructions ≠ [] ∧ c'.instructions.getLast? = some .exit ∧
      (last_is_return exprs = false →
        ∃ pre, c'.instructions = pre ++ [.mov64 .r0 0, .exit]) :=
  compile_ret_exit h

/-- C7 amended witness: the empty program over the C4 database compiles to
`[mov64 R0,0; exit]`. -/
theorem claim_c7_stream_ends_exit_witness :
    c7_empty_out.instructions ≠ [] ∧
    c7_empty_out.instructions.getLast? = some .exit ∧
    (last_is_return .nil = false →
      ∃ pre, c7_empty_out.instructions = pre ++ [.mov64 .r0 0, .exit]) :=
  claim_c7_stream_ends_exit (Compiler.create c4_database) ⟨[]⟩ .nil
    c7_empty_out (by rfl)

/-- C8: `add_type` with an already-bound name overwrites the slot at the
existing id and returns that id, leaving the name map and every other id
unchanged; with a fresh name or no name it appends, returns the previous
length of the type vector, and every previously handed-out id still
resolves to the same type. -/
theorem claim_c8_add_type (db : TypeDatabase) (name : String) (ty : Ty) :
    (∀ id, db.name_map.lookup name = some id →
      db.add_type (some name) ty = ({ db with types := db.types.set id ty }, id) ∧
      (∀ id2, id2 ≠ id →
        (db.add_type (some name) ty).1.get_type_by_id id2 =
          db.get_type_by_id id2)) ∧
    (db.name_map.lookup name = none →
      db.add_type (some name) ty =
        ({ types := db.types ++ [ty],
           name_map := (name, db.types.length) :: db.name_map },
          db.types.length) ∧
      (∀ id2, id2 < db.types.length →
        (db.add_type (some name) ty).1.get_type_by_id id2 =
          db.get_type_by_id id2)) ∧
    (db.add_type none ty = ({ db with types := db.types ++ [ty] },
        db.types.length) ∧
      ∀ id2, id2 < db.types.length →
        (db.add_type none ty).1.get_type_by_id id2 = db.get_type_by_id id2) := by
  refine ⟨fun id hid => ?_, fun hid => ?_, ?_⟩
  · have he : db.add_type (some name) ty =
        ({ db with types := db.types.set id ty }, id) := by
      unfold TypeDatabase.add_type
      dsimp only
      rw [hid]
    refine ⟨he, fun id2 hne => ?_⟩
    rw [he]
    exact List.get?_set_ne ty db.types (fun hc => hne hc.symm)
  · have he : db.add_type (some name) ty =
        ({ types := db.types ++ [ty],
           name_map := (name, db.types.length) :: db.name_map },
          db.types.length) := by
      unfold TypeDatabase.add_type
      dsimp only
      rw [hid]
    refine ⟨he, fun id2 hlt => ?_⟩
    rw [he]
    exact List.get?_append hlt
  · refine ⟨rfl, fun id2 hlt => ?_⟩
    exact List.get?_append hlt

/-- C8 witness: on the C8 database, re-adding under the bound name `t`
overwrites slot 0 and returns id 0; adding under the fresh name `u`
appends at id 1 and leaves id 0 resolving unchanged. -/
theorem claim_c8_add_type_witness :
    c8_database.add_type (some ("t")) c8_new_type =
      ({ c8_database with types := c8_database.types.set 0 c8_new_type }, 0) ∧
    c8_database.add_type (some ("u")) c8_new_type =
      ({ types := c8_database.types ++ [c8_new_type],
         name_map := (("u"), 1) :: c8_database.name_map }, 1) ∧
    (c8_database.add_type (some ("u")) c8_new_type).1.get_type_by_id 0 =
      c8_database.get_type_by_id 0 :=
  ⟨((claim_c8_add_type c8_database ("t") c8_new_type).1 0 (by rfl)).1,
   ((claim_c8_add_type c8_database ("u") c8_new_type).2.1 (by rfl)).1,
   ((claim_c8_add_type c8_database ("u") c8_new_type).2.1 (by rfl)).2 0
     (by decide)⟩

/-- C9: pushing an immediate with a pointer cast type requires a u8-range
parse (any larger or non-numeric literal is the parse-failure semantics
error), and on success emits exactly one byte store `store8 R10,off,imm`
into the 8-byte pointer slot — the remaining 7 bytes are never written. -/
theorem claim_c9_pointer_immediate (c : Compiler) (s : String) (t : Ty)
    (off : Int) (hp : t.is_pointer = true) :
    t.get_size = 8 ∧
    (parse_in_range s 255 = none →
      c.emit_push_immediate s t (some off) =
        .error (.semantics c.expr_num msg_parse_immediate_failed)) ∧
    (∀ v, parse_in_range s 255 = some v →
      c.emit_push_immediate s t (some off) =
        .ok ((off, t), c.push_instr (.store8 .r10 off (as_i8 v)))) ∧
    (∀ v, parse_decimal s = some v → 255 < v →
      parse_in_range s 255 = none) := by
  have hnr : 0 < t.num_refs := by simpa [Ty.is_pointer] using hp
  refine ⟨by simp [Ty.get_size, hnr], fun hnone => ?_, fun v hv => ?_,
    fun v hdec hbig => ?_⟩
  · rw [emit_push_immediate_pointer c s t off hp, hnone]
  · rw [emit_push_immediate_pointer c s t off hp, hv]
  · unfold parse_in_range
    rw [hdec]
    dsimp only
    rw [if_neg (by omega)]

/-- C9 witness: through the pointer type `&u8`, the literal 300 is
rejected as a parse failure while the literal 7 is stored with a single
byte store. -/
theorem claim_c9_pointer_immediate_witness :
    c9_pointer_type.get_size = 8 ∧
    Compiler.emit_push_immediate (Compiler.create c1_database) (("300"))
        c9_pointer_type (some (-8)) =
      .error (.semantics 1 msg_parse_immediate_failed) ∧
    Compiler.emit_push_immediate (Compiler.create c1_database) (("7"))
        c9_pointer_type (some (-8)) =
      .ok ((-8, c9_pointer_type),
        (Compiler.create c1_database).push_instr (.store8 .r10 (-8) (as_i8 7))) := by
  refine ⟨?_, ?_, ?_⟩
  · exact (claim_c9_pointer_immediate (Compiler.create c1_database) (("300"))
      c9_pointer_type (-8) (by decide)).1
  · exact (claim_c9_pointer_immediate (Compiler.create c1_database) (("300"))
      c9_pointer_type (-8) (by decide)).2.1 (by rfl)
  · exact (claim_c9_pointer_immediate (Compiler.create c1_database) (("7"))
      c9_pointer_type (-8) (by decide)).2.2.1 7 (by rfl)

/-- C10: `capture` records the variable at `SpecialImmediate (v mod 2^32)`
with unsigned 64-bit integer type — the i64 value is truncated to its low
32 bits, never rejected — and reading any special-immediate variable as a
plain rvalue emits exactly one `loadtype` instruction carrying that
truncated immediate. -/
theorem claim_c10_capture_truncation (c : Compiler) (name : String) (v : Int) :
    (Compiler.capture c name v).vars.lookup name =
      some ⟨⟨.integer ⟨64, 64, false⟩, 0⟩, .specialImmediate (int_as_u32 v)⟩ ∧
    ((int_as_u32 v : Nat) : Int) = v.emod 4294967296 ∧
    (∀ (c2 : Compiler) (reg : Register) (w : Nat) (vt : Ty)
        (lt : Option MemoryOpLoadType),
      c2.vars.lookup name = some ⟨vt, .specialImmediate w⟩ →
      c2.emit_set_register_from_lvalue reg ⟨none, name, []⟩ lt =
        .ok (c2.push_instr (.loadtype reg (w : Int) (lt.getD .void)))) := by
  refine ⟨?_, ?_, ?_⟩
  · simp [Compiler.capture, List.lookup]
  · exact Int.toNat_of_nonneg (Int.emod_nonneg v (by decide))
  · intro c2 reg w vt lt hlook
    have hv : c2.get_variable_by_name ((⟨none, name, []⟩ : LValue).name) =
        .ok ⟨vt, .specialImmediate w⟩ := by
      simp [Compiler.get_variable_by_name, hlook]
    unfold Compiler.emit_set_register_from_lvalue
    rw [hv]
    simp [Bind.bind, Except.bind]

/-- C10 witness: capturing `m = 2^32 + 5` stores special immediate 5, and
reading `m` emits `loadtype R3,5,void`. -/
theorem claim_c10_capture_truncation_witness :
    (Compiler.capture (Compiler.create c1_database) (("m"))
        4294967301).vars.lookup (("m")) =
      some ⟨⟨.integer ⟨64, 64, false⟩, 0⟩, .specialImmediate 5⟩ ∧
    (Compiler.capture (Compiler.create c1_database) (("m"))
        4294967301).emit_set_register_from_lvalue .r3 ⟨none, ("m"), []⟩ none =
      .ok ((Compiler.capture (Compiler.create c1_database) (("m"))
        4294967301).push_instr (.loadtype .r3 5 .void)) := by
  refine ⟨?_, ?_⟩
  · exact (claim_c10_capture_truncation (Compiler.create c1_database) (("m"))
      4294967301).1
  · exact (claim_c10_capture_truncation (Compiler.create c1_database) (("m"))
      4294967301).2.2 (Compiler.capture (Compiler.create c1_database) (("m"))
        4294967301) .r3 5 ⟨.integer ⟨64, 64, false⟩, 0⟩ none (by rfl)
